import Mathlib

/-!
Verification of the RouteDash server core: the order lifecycle services
(`orderService`) and the restaurant analytics aggregation
(`analyticsService`), shallowly embedded from the TypeScript source.

Conventions of the embedding:
* the Prisma store is a `Db` record of entity lists; `findUnique`/`findMany`
  become `List.find?`/`List.filter`, and a row update becomes a map that
  replaces the row with the matching primary key;
* JS numbers holding money/quantities are `Nat` (the code only ever adds and
  multiplies non-negative integers); `pickupEtaMin` is `Int` because the
  route-update endpoint must detect non-positive inputs;
* a thrown `HttpError` becomes `Except.error`; service functions that write
  to the store return the (possibly unchanged) store next to the result;
* `Array.prototype.sort` is a stable sort, so it is embedded as
  `List.insertionSort` with the comparator's preorder (for a total preorder
  a stable sort's output is uniquely determined, so any stable sort is an
  exact model);
* a JS `Map` accumulation pattern (get-then-mutate-else-set) preserves
  insertion order; it is embedded as `jsGroupBy`, a fold over an association
  list that appends new keys at the tail;
* `createdAt` timestamps are reduced to the fields the code reads: the UTC
  calendar day (as days since 1970-01-01, whose numeric order coincides with
  the lexicographic order of the `YYYY-MM-DD` strings the code builds) and
  the hour of day (`getHours`, always in `0..23`, hence `Fin 24`); the
  server clock is taken to be UTC so `getDate`/`getDay` agree with
  `toISOString`;
* `TAX_RATE = 0.0825` is modelled as the exact rational `33/400`, and
  `Math.round` on a non-negative quotient as round-half-up on rationals
  (`jsRoundDiv`).
-/

namespace RouteDash

/-- The Prisma `OrderStatus` enum. -/
inductive OrderStatus where
  | PENDING
  | PREPARING
  | READY
  | COMPLETED
  | CANCELED
deriving DecidableEq, Repr

/-- The string Prisma/JS would render for a status (used in error messages). -/
def statusName : OrderStatus → String
  | .PENDING => "PENDING"
  | .PREPARING => "PREPARING"
  | .READY => "READY"
  | .COMPLETED => "COMPLETED"
  | .CANCELED => "CANCELED"

/-- One persisted `OrderItem` row (price snapshot at order time). -/
structure OrderItem where
  menuItemId : String
  quantity : Nat
  priceCents : Nat
deriving DecidableEq, Repr

/-- The parts of a JS `Date` the analytics code reads: UTC day and hour. -/
structure DateTime where
  epochDay : Nat
  hour : Fin 24
deriving DecidableEq, Repr

/-- One persisted `Order` row together with its owned items. -/
structure Order where
  id : String
  customerId : String
  restaurantId : String
  status : OrderStatus
  pickupEtaMin : Int
  routeOrigin : String
  routeDestination : String
  totalCents : Nat
  createdAt : DateTime
  items : List OrderItem
deriving DecidableEq, Repr

/-- The fields of a `Restaurant` row the order service reads. -/
structure Restaurant where
  id : String
  isActive : Bool
deriving DecidableEq, Repr

/-- The fields of a `MenuItem` row the order service reads. -/
structure MenuItem where
  id : String
  restaurantId : String
  name : String
  priceCents : Nat
  isAvailable : Bool
deriving DecidableEq, Repr

/-- An `HttpError(status, message)` thrown by the services. -/
structure HttpError where
  status : Nat
  message : String
deriving DecidableEq, Repr

/-- The Prisma store. -/
structure Db where
  restaurants : List Restaurant
  menuItems : List MenuItem
  orders : List Order
deriving DecidableEq, Repr

/-- `Math.round(a / b)` for non-negative `a` and positive `b`: JS rounds
half-way cases toward `+∞`, i.e. `⌊a/b + 1/2⌋ = (2a + b) / (2b)`. -/
def jsRoundDiv (a b : Nat) : Nat := (2 * a + b) / (2 * b)

/-- `calculateSubtotal`: `items.reduce((t, i) => t + i.priceCents * i.quantity, 0)`. -/
def calculateSubtotal (items : List OrderItem) : Nat :=
  items.foldl (fun total item => total + item.priceCents * item.quantity) 0

/-- An order as returned to clients: the row plus the derived financial
annotations added by `attachFinancials`. -/
structure AnnotatedOrder where
  order : Order
  subtotalCents : Nat
  taxCents : Nat
deriving DecidableEq, Repr

/-- `attachFinancials(order, overrides?)`: derives `subtotalCents` from the
items and `taxCents = Math.max(totalCents - subtotalCents, 0)` (embedded as
`Int.toNat` of the difference), unless overrides are supplied. -/
def attachFinancials (order : Order) (overrides : Option (Nat × Nat) := none) :
    AnnotatedOrder :=
  let subtotalCents := match overrides with
    | some o => o.1
    | none => calculateSubtotal order.items
  let taxCents := match overrides with
    | some o => o.2
    | none => ((order.totalCents : Int) - (subtotalCents : Int)).toNat
  ⟨order, subtotalCents, taxCents⟩

/-- `STATUS_TRANSITIONS`: the allowed next statuses per current status. -/
def STATUS_TRANSITIONS : OrderStatus → List OrderStatus
  | .PENDING => [.PREPARING, .CANCELED]
  | .PREPARING => [.READY, .CANCELED]
  | .READY => [.COMPLETED, .CANCELED]
  | .COMPLETED => []
  | .CANCELED => []

/-- `prisma.order.update({ where: { id }, data })`: replace the row with the
matching primary key. -/
def replaceOrder (orders : List Order) (orderId : String) (updated : Order) :
    List Order :=
  orders.map (fun o => if o.id == orderId then updated else o)

/-- `updateOrderStatusForRestaurant(restaurantId, orderId, nextStatus)`. -/
def updateOrderStatusForRestaurant (db : Db) (restaurantId orderId : String)
    (nextStatus : OrderStatus) : Except HttpError AnnotatedOrder × Db :=
  match db.orders.find? (fun o => o.id == orderId) with
  | none => (.error ⟨404, "Order not found"⟩, db)
  | some order =>
    if order.restaurantId ≠ restaurantId then (.error ⟨404, "Order not found"⟩, db)
    else if order.status = nextStatus then (.ok (attachFinancials order), db)
    else if nextStatus ∈ STATUS_TRANSITIONS order.status then
      let updated := { order with status := nextStatus }
      (.ok (attachFinancials updated),
        { db with orders := replaceOrder db.orders orderId updated })
    else (.error ⟨400, "Invalid status transition"⟩, db)

lemma find?_replaceOrder (orders : List Order) (orderId : String)
    (order updated : Order)
    (hfind : orders.find? (fun o => o.id == orderId) = some order)
    (hid : updated.id = order.id) :
    (replaceOrder orders orderId updated).find? (fun o => o.id == orderId) =
      some updated := by
  induction orders with
  | nil => simp at hfind
  | cons o os ih =>
    rcases ho : (o.id == orderId) with _ | _
    · rw [List.find?_cons_of_neg _ (by simp [ho])] at hfind
      simp only [replaceOrder, List.map_cons, ho, if_neg (by simp [ho] : ¬(o.id == orderId) = true)]
      rw [List.find?_cons_of_neg _ (by simp [ho])]
      exact ih hfind
    · rw [List.find?_cons_of_pos _ (by simp [ho])] at hfind
      injection hfind with h
      subst h
      have hupd : (updated.id == orderId) = true := by
        simp [hid, eq_of_beq ho]
      simp only [replaceOrder, List.map_cons, ho, ite_true]
      rw [List.find?_cons_of_pos _ (by simpa using hupd)]

/-- C1: given the order exists and belongs to the restaurant,
`updateOrderStatusForRestaurant` follows the transition table exactly:
same-status requests are no-ops returning the order unchanged; targets in the
allowed set for the current status succeed and persist the new status;
anything else fails with a 400; in particular the table is precisely
PENDING→{PREPARING, CANCELED}, PREPARING→{READY, CANCELED},
READY→{COMPLETED, CANCELED}, COMPLETED→{}, CANCELED→{}, so from a terminal
status every request for a different status fails. -/
theorem c1_status_transition_table (db : Db) (restaurantId orderId : String)
    (nextStatus : OrderStatus) (order : Order)
    (hfind : db.orders.find? (fun o => o.id == orderId) = some order)
    (hown : order.restaurantId = restaurantId) :
    (STATUS_TRANSITIONS .PENDING = [.PREPARING, .CANCELED] ∧
     STATUS_TRANSITIONS .PREPARING = [.READY, .CANCELED] ∧
     STATUS_TRANSITIONS .READY = [.COMPLETED, .CANCELED] ∧
     STATUS_TRANSITIONS .COMPLETED = [] ∧
     STATUS_TRANSITIONS .CANCELED = []) ∧
    (order.status = nextStatus →
      updateOrderStatusForRestaurant db restaurantId orderId nextStatus =
        (.ok (attachFinancials order), db)) ∧
    (order.status ≠ nextStatus → nextStatus ∈ STATUS_TRANSITIONS order.status →
      updateOrderStatusForRestaurant db restaurantId orderId nextStatus =
        (.ok (attachFinancials { order with status := nextStatus }),
          { db with orders := replaceOrder db.orders orderId { order with status := nextStatus } }) ∧
      ({ db with orders := replaceOrder db.orders orderId { order with status := nextStatus } } :
          Db).orders.find? (fun o => o.id == orderId) =
        some { order with status := nextStatus }) ∧
    (order.status ≠ nextStatus → nextStatus ∉ STATUS_TRANSITIONS order.status →
      updateOrderStatusForRestaurant db restaurantId orderId nextStatus =
        (.error ⟨400, "Invalid status transition"⟩, db)) ∧
    ((order.status = .COMPLETED ∨ order.status = .CANCELED) →
      order.status ≠ nextStatus →
      updateOrderStatusForRestaurant db restaurantId orderId nextStatus =
        (.error ⟨400, "Invalid status transition"⟩, db)) := by
  refine ⟨⟨rfl, rfl, rfl, rfl, rfl⟩, ?_, ?_, ?_, ?_⟩
  · intro hsame
    simp [updateOrderStatusForRestaurant, hfind, hown, hsame]
  · intro hne hallowed
    constructor
    · simp [updateOrderStatusForRestaurant, hfind, hown, hne, hallowed]
    · exact find?_replaceOrder _ _ _ _ hfind rfl
  · intro hne hnot
    simp [updateOrderStatusForRestaurant, hfind, hown, hne, hnot]
  · intro hterm hne
    have hnot : nextStatus ∉ STATUS_TRANSITIONS order.status := by
      rcases hterm with h | h <;> simp [h, STATUS_TRANSITIONS]
    simp [updateOrderStatusForRestaurant, hfind, hown, hne, hnot]

/-- A concrete pending order used by witnesses. -/
def wOrder : Order :=
  { id := "o1", customerId := "c1", restaurantId := "r1", status := .PENDING,
    pickupEtaMin := 10, routeOrigin := "A", routeDestination := "B",
    totalCents := 1083, createdAt := ⟨20000, 9⟩,
    items := [⟨"m1", 2, 500⟩] }

/-- A concrete store holding `wOrder` used by witnesses. -/
def wDb : Db :=
  { restaurants := [⟨"r1", true⟩],
    menuItems := [⟨"m1", "r1", "Burger", 500, true⟩],
    orders := [wOrder] }

theorem c1_status_transition_table_witness :
    updateOrderStatusForRestaurant wDb "r1" "o1" .PREPARING =
      (.ok (attachFinancials { wOrder with status := .PREPARING }),
        { wDb with orders := replaceOrder wDb.orders "o1" { wOrder with status := .PREPARING } }) := by
  have h := c1_status_transition_table wDb "r1" "o1" .PREPARING wOrder (by rfl) (by rfl)
  exact (h.2.2.1 (by decide) (by decide)).1

/-! ## Order creation (`createOrder`) -/

/-- One requested line `{ menuItemId, quantity }` of a create-order call. -/
structure OrderItemInput where
  menuItemId : String
  quantity : Nat
deriving DecidableEq, Repr

/-- The `CreateOrderInput` payload. -/
structure CreateOrderInput where
  restaurantId : String
  items : List OrderItemInput
  pickupEtaMin : Int
  routeOrigin : String
  routeDestination : String
deriving DecidableEq, Repr

/-- `Math.round(subtotalCents * TAX_RATE)` with `TAX_RATE = 0.0825 = 33/400`,
rounding half-way cases up as JS does. -/
def taxOf (subtotalCents : Nat) : Nat := jsRoundDiv (33 * subtotalCents) 400

/-- `menuItems.find((i) => i.id === item.menuItemId)!.priceCents`; the non-null
assertion is justified on the success path by the length check, and the
never-reached `none` branch is embedded as `0`. -/
def priceOf (menuItems : List MenuItem) (menuItemId : String) : Nat :=
  match menuItems.find? (fun i => i.id == menuItemId) with
  | some m => m.priceCents
  | none => 0

/-- The `prisma.menuItem.findMany` of `createOrder`: available menu items of
the restaurant whose id occurs among the requested ids. -/
def menuItemsFor (db : Db) (restaurant : Restaurant) (input : CreateOrderInput) :
    List MenuItem :=
  db.menuItems.filter (fun m =>
    (input.items.map (fun item => item.menuItemId)).contains m.id &&
      m.restaurantId == restaurant.id && m.isAvailable)

/-- `createOrder(customerId, input)`; `newId` and `now` stand for the id and
`createdAt` the store assigns to the new row. -/
def createOrder (db : Db) (customerId : String) (input : CreateOrderInput)
    (newId : String) (now : DateTime) : Except HttpError AnnotatedOrder × Db :=
  match db.restaurants.find? (fun r => r.id == input.restaurantId && r.isActive) with
  | none => (.error ⟨404, "Restaurant not found"⟩, db)
  | some restaurant =>
    let menuItems := menuItemsFor db restaurant input
    if menuItems.length ≠ input.items.length then
      (.error ⟨400, "Some menu items are unavailable"⟩, db)
    else
      let subtotalCents := input.items.foldl
        (fun total item => total + priceOf menuItems item.menuItemId * item.quantity) 0
      let taxCents := taxOf subtotalCents
      let totalCents := subtotalCents + taxCents
      let order : Order :=
        { id := newId, customerId := customerId, restaurantId := restaurant.id,
          status := .PENDING, pickupEtaMin := input.pickupEtaMin,
          routeOrigin := input.routeOrigin,
          routeDestination := input.routeDestination,
          totalCents := totalCents, createdAt := now,
          items := input.items.map (fun item =>
            ⟨item.menuItemId, item.quantity, priceOf menuItems item.menuItemId⟩) }
      (.ok (attachFinancials order (some (subtotalCents, taxCents))),
        { db with orders := db.orders ++ [order] })

/-- The canonical stored price of a menu item id in the store. -/
def canonicalPriceCents (db : Db) (menuItemId : String) : Nat :=
  priceOf db.menuItems menuItemId

/-- A requested line resolves: some available menu item of the restaurant has
the requested id. -/
def resolves (db : Db) (restaurantId : String) (item : OrderItemInput) : Prop :=
  ∃ m ∈ db.menuItems,
    m.id = item.menuItemId ∧ m.restaurantId = restaurantId ∧ m.isAvailable = true

instance (db : Db) (restaurantId : String) (item : OrderItemInput) :
    Decidable (resolves db restaurantId item) := by
  unfold resolves; infer_instance

lemma foldl_add_eq_sum_map {α : Type} (f : α → Nat) (l : List α) (n : Nat) :
    l.foldl (fun t a => t + f a) n = n + (l.map f).sum := by
  induction l generalizing n with
  | nil => simp
  | cons a l ih => simp [ih, Nat.add_assoc]

lemma mem_menuItemsFor {db : Db} {restaurant : Restaurant}
    {input : CreateOrderInput} {m : MenuItem} :
    m ∈ menuItemsFor db restaurant input ↔
      m ∈ db.menuItems ∧
        m.id ∈ input.items.map (fun item => item.menuItemId) ∧
        m.restaurantId = restaurant.id ∧ m.isAvailable = true := by
  simp [menuItemsFor, List.mem_filter, and_assoc]

lemma nodup_ids_menuItemsFor {db : Db} {restaurant : Restaurant}
    {input : CreateOrderInput}
    (hnodup : (db.menuItems.map (fun m => m.id)).Nodup) :
    ((menuItemsFor db restaurant input).map (fun m => m.id)).Nodup :=
  List.Nodup.sublist ((List.filter_sublist _).map _) hnodup

/-- The `menuItems.length !== input.items.length` check passes exactly when
the requested ids are pairwise distinct and each resolves. -/
lemma length_check_iff {db : Db} {restaurant : Restaurant}
    {input : CreateOrderInput}
    (hnodup : (db.menuItems.map (fun m => m.id)).Nodup)
    (hrid : restaurant.id = input.restaurantId) :
    (menuItemsFor db restaurant input).length = input.items.length ↔
      ((input.items.map (fun item => item.menuItemId)).Nodup ∧
        ∀ item ∈ input.items, resolves db input.restaurantId item) := by
  classical
  set fl := menuItemsFor db restaurant input with hfl
  set fids := fl.map (fun m => m.id) with hfids
  set keys := input.items.map (fun item => item.menuItemId) with hkeys
  have hfidsnodup : fids.Nodup := nodup_ids_menuItemsFor hnodup
  have hsub : ∀ x ∈ fids, x ∈ keys := by
    intro x hx
    rcases List.mem_map.mp hx with ⟨m, hm, rfl⟩
    exact (mem_menuItemsFor.mp hm).2.1
  have hsubF : fids.toFinset ⊆ keys.toFinset := by
    intro x hx
    exact List.mem_toFinset.mpr (hsub x (List.mem_toFinset.mp hx))
  have hlenf : fl.length = fids.length := (List.length_map _ _).symm
  constructor
  · intro hlen
    have h1 : fids.toFinset.card = fids.length :=
      List.toFinset_card_of_nodup hfidsnodup
    have h2 : fids.toFinset.card ≤ keys.toFinset.card := Finset.card_le_card hsubF
    have h3 : keys.toFinset.card ≤ keys.length := List.toFinset_card_le keys
    have hklen : keys.length = fl.length := by simp [hkeys, hlen]
    have hcard : keys.toFinset.card = keys.length := by omega
    have hkeysnodup : keys.Nodup := by
      have hd : keys.dedup.length = keys.length := by
        rw [← List.card_toFinset]; exact hcard
      have := List.Sublist.eq_of_length (List.dedup_sublist keys) hd
      rw [← this]; exact List.nodup_dedup keys
    have hFeq : fids.toFinset = keys.toFinset :=
      Finset.eq_of_subset_of_card_le hsubF (by omega)
    refine ⟨hkeysnodup, ?_⟩
    intro item hitem
    have hk : item.menuItemId ∈ keys := List.mem_map.mpr ⟨item, hitem, rfl⟩
    have : item.menuItemId ∈ fids := by
      have := hFeq ▸ (List.mem_toFinset.mpr hk)
      exact List.mem_toFinset.mp this
    rcases List.mem_map.mp this with ⟨m, hm, hmid⟩
    rcases mem_menuItemsFor.mp hm with ⟨hmdb, _, hmrest, hmav⟩
    exact ⟨m, hmdb, hmid, hrid ▸ hmrest, hmav⟩
  · rintro ⟨hkeysnodup, hres⟩
    have hsub2 : ∀ x ∈ keys, x ∈ fids := by
      intro x hx
      rcases List.mem_map.mp hx with ⟨item, hitem, rfl⟩
      rcases hres item hitem with ⟨m, hmdb, hmid, hmrest, hmav⟩
      refine List.mem_map.mpr ⟨m, ?_, hmid⟩
      exact mem_menuItemsFor.mpr
        ⟨hmdb, hmid ▸ List.mem_map.mpr ⟨item, hitem, rfl⟩, by rw [hmrest, hrid], hmav⟩
    have hFeq : fids.toFinset = keys.toFinset := by
      apply Finset.Subset.antisymm hsubF
      intro x hx
      exact List.mem_toFinset.mpr (hsub2 x (List.mem_toFinset.mp hx))
    have h1 : fids.toFinset.card = fids.length :=
      List.toFinset_card_of_nodup hfidsnodup
    have h2 : keys.toFinset.card = keys.length :=
      List.toFinset_card_of_nodup hkeysnodup
    have : fids.length = keys.length := by rw [← h1, ← h2, hFeq]
    simpa [hkeys] using hlenf.trans this

/-- On the success path, the price looked up in the filtered list is the
canonical stored price. -/
lemma priceOf_menuItemsFor_eq_canonical {db : Db} {restaurant : Restaurant}
    {input : CreateOrderInput}
    (hnodup : (db.menuItems.map (fun m => m.id)).Nodup)
    (hrid : restaurant.id = input.restaurantId)
    {item : OrderItemInput} (hitem : item ∈ input.items)
    (hres : resolves db input.restaurantId item) :
    priceOf (menuItemsFor db restaurant input) item.menuItemId =
      canonicalPriceCents db item.menuItemId := by
  classical
  rcases hres with ⟨m, hmdb, hmid, hmrest, hmav⟩
  have hmfl : m ∈ menuItemsFor db restaurant input :=
    mem_menuItemsFor.mpr
      ⟨hmdb, hmid ▸ List.mem_map.mpr ⟨item, hitem, rfl⟩, by rw [hmrest, hrid], hmav⟩
  have hfl1 : ∃ x ∈ menuItemsFor db restaurant input,
      (x.id == item.menuItemId) = true := ⟨m, hmfl, by simp [hmid]⟩
  have hdb1 : ∃ x ∈ db.menuItems, (x.id == item.menuItemId) = true :=
    ⟨m, hmdb, by simp [hmid]⟩
  rcases Option.isSome_iff_exists.mp (List.find?_isSome.mpr hfl1) with ⟨m₁, hm₁⟩
  rcases Option.isSome_iff_exists.mp (List.find?_isSome.mpr hdb1) with ⟨m₂, hm₂⟩
  have hm₁mem : m₁ ∈ db.menuItems :=
    (mem_menuItemsFor.mp (List.mem_of_find?_eq_some hm₁)).1
  have hm₁id : m₁.id = item.menuItemId := by
    simpa using List.find?_some hm₁
  have hm₂id : m₂.id = item.menuItemId := by
    simpa using List.find?_some hm₂
  have : m₁ = m₂ :=
    List.inj_on_of_nodup_map hnodup hm₁mem (List.mem_of_find?_eq_some hm₂)
      (by rw [hm₁id, hm₂id])
  simp [priceOf, canonicalPriceCents, hm₁, hm₂, this]

/-- C2: a successful `createOrder` annotates the order with
`subtotalCents = Σ canonicalPrice × quantity` over the requested lines (the
stored prices, never client-supplied ones), `taxCents = round(subtotal ×
0.0825)`, and persists an order whose `totalCents` is exactly their sum. -/
theorem c2_total_is_subtotal_plus_tax (db : Db) (customerId : String)
    (input : CreateOrderInput) (newId : String) (now : DateTime)
    (hnodup : (db.menuItems.map (fun m => m.id)).Nodup)
    (_hne : input.items ≠ [])
    (ann : AnnotatedOrder) (db' : Db)
    (hok : createOrder db customerId input newId now = (.ok ann, db')) :
    ann.subtotalCents =
      (input.items.map (fun item =>
        canonicalPriceCents db item.menuItemId * item.quantity)).sum ∧
    ann.taxCents = taxOf ann.subtotalCents ∧
    ann.order.totalCents = ann.subtotalCents + ann.taxCents ∧
    db'.orders = db.orders ++ [ann.order] := by
  classical
  rcases hfr : db.restaurants.find?
      (fun r => r.id == input.restaurantId && r.isActive) with _ | restaurant
  · simp [createOrder, hfr] at hok
  · have hps := List.find?_some hfr
    have hrid : restaurant.id = input.restaurantId := by
      simp only [Bool.and_eq_true, beq_iff_eq] at hps
      exact hps.1
    by_cases hlen : (menuItemsFor db restaurant input).length = input.items.length
    · obtain ⟨hkeysnodup, hres⟩ := (length_check_iff hnodup hrid).mp hlen
      simp only [createOrder, hfr,
        if_neg (show ¬(menuItemsFor db restaurant input).length ≠ input.items.length by
          omega)] at hok
      rw [Prod.ext_iff] at hok
      obtain ⟨hann, hdb'⟩ := hok
      simp only [Except.ok.injEq] at hann
      subst hann
      subst hdb'
      refine ⟨?_, rfl, rfl, rfl⟩
      show input.items.foldl
        (fun total item =>
          total + priceOf (menuItemsFor db restaurant input) item.menuItemId * item.quantity) 0 = _
      rw [foldl_add_eq_sum_map, Nat.zero_add]
      congr 1
      apply List.map_congr_left
      intro item hitem
      rw [priceOf_menuItemsFor_eq_canonical hnodup hrid hitem (hres item hitem)]
    · simp [createOrder, hfr, if_pos hlen] at hok

/-- A concrete valid create-order payload used by witnesses. -/
def wInput : CreateOrderInput :=
  { restaurantId := "r1", items := [⟨"m1", 2⟩], pickupEtaMin := 10,
    routeOrigin := "A", routeDestination := "B" }

/-- The order `createOrder wDb "c1" wInput "o2" ⟨20000, 9⟩` creates. -/
def wAnn : AnnotatedOrder :=
  ⟨{ id := "o2", customerId := "c1", restaurantId := "r1", status := .PENDING,
     pickupEtaMin := 10, routeOrigin := "A", routeDestination := "B",
     totalCents := 1083, createdAt := ⟨20000, 9⟩, items := [⟨"m1", 2, 500⟩] },
   1000, 83⟩

/-- The store after that creation. -/
def wDb2 : Db := { wDb with orders := wDb.orders ++ [wAnn.order] }

theorem c2_total_is_subtotal_plus_tax_witness :
    wAnn.subtotalCents =
      (wInput.items.map (fun item =>
        canonicalPriceCents wDb item.menuItemId * item.quantity)).sum ∧
    wAnn.taxCents = taxOf wAnn.subtotalCents ∧
    wAnn.order.totalCents = wAnn.subtotalCents + wAnn.taxCents ∧
    wDb2.orders = wDb.orders ++ [wAnn.order] :=
  c2_total_is_subtotal_plus_tax wDb "c1" wInput "o2" ⟨20000, 9⟩ (by decide)
    (by decide) wAnn wDb2 (by rfl)

/-- A payload duplicating one valid menu item id. -/
def c3Input : CreateOrderInput :=
  { restaurantId := "r1", items := [⟨"m1", 1⟩, ⟨"m1", 1⟩], pickupEtaMin := 10,
    routeOrigin := "A", routeDestination := "B" }

/-- C3 as stated fails on the code: in `wDb` the restaurant `r1` is active and
every requested line of `c3Input` (the id `m1` twice) resolves to an available
menu item of `r1`, yet `createOrder` rejects the request with the 400
"items unavailable" error, because the distinct matched rows are counted
against the (longer) request list. -/
theorem c3_counterexample :
    (∃ r ∈ wDb.restaurants, r.id = c3Input.restaurantId ∧ r.isActive = true) ∧
    (∀ item ∈ c3Input.items, resolves wDb c3Input.restaurantId item) ∧
    c3Input.items ≠ [] ∧
    (createOrder wDb "c1" c3Input "o2" ⟨20000, 9⟩).1 =
      .error ⟨400, "Some menu items are unavailable"⟩ :=
  ⟨by decide, by decide, by decide, by rfl⟩

/-- C3 amended: `createOrder` fails with NotFound exactly when no active
restaurant has the given id; given an active restaurant, it fails with
BadRequest ("Some menu items are unavailable") exactly when the requested
menuItemIds are not pairwise distinct or some requested id does not resolve
to an available menu item of that restaurant; and it succeeds exactly when
the restaurant is active, the ids are pairwise distinct, and every id
resolves.  (So a request duplicating a valid menuItemId is rejected, not
accepted as C3 stated.) -/
theorem c3_error_characterization (db : Db) (customerId : String)
    (input : CreateOrderInput) (newId : String) (now : DateTime)
    (hnodup : (db.menuItems.map (fun m => m.id)).Nodup) :
    ((createOrder db customerId input newId now).1 =
        .error ⟨404, "Restaurant not found"⟩ ↔
      ¬ ∃ r ∈ db.restaurants, r.id = input.restaurantId ∧ r.isActive = true) ∧
    ((∃ r ∈ db.restaurants, r.id = input.restaurantId ∧ r.isActive = true) →
      ((createOrder db customerId input newId now).1 =
          .error ⟨400, "Some menu items are unavailable"⟩ ↔
        ¬ ((input.items.map (fun item => item.menuItemId)).Nodup ∧
            ∀ item ∈ input.items, resolves db input.restaurantId item))) ∧
    ((∃ ann, (createOrder db customerId input newId now).1 = .ok ann) ↔
      ((∃ r ∈ db.restaurants, r.id = input.restaurantId ∧ r.isActive = true) ∧
        (input.items.map (fun item => item.menuItemId)).Nodup ∧
        ∀ item ∈ input.items, resolves db input.restaurantId item)) := by
  classical
  rcases hfr : db.restaurants.find?
      (fun r => r.id == input.restaurantId && r.isActive) with _ | restaurant
  · have hnone : ¬ ∃ r ∈ db.restaurants, r.id = input.restaurantId ∧
        r.isActive = true := by
      rintro ⟨r, hr, hid, hact⟩
      have := List.find?_eq_none.mp hfr r hr
      simp [hid, hact] at this
    refine ⟨?_, ?_, ?_⟩
    · simp [createOrder, hfr, hnone]
    · intro h; exact absurd h hnone
    · simp [createOrder, hfr, hnone]
  · have hps := List.find?_some hfr
    have hrid : restaurant.id = input.restaurantId := by
      simp only [Bool.and_eq_true, beq_iff_eq] at hps
      exact hps.1
    have hact : restaurant.isActive = true := by
      simp only [Bool.and_eq_true, beq_iff_eq] at hps
      exact hps.2
    have hexists : ∃ r ∈ db.restaurants, r.id = input.restaurantId ∧
        r.isActive = true :=
      ⟨restaurant, List.mem_of_find?_eq_some hfr, hrid, hact⟩
    by_cases hlen : (menuItemsFor db restaurant input).length = input.items.length
    · have hcond := (length_check_iff hnodup hrid).mp hlen
      have hnoerr : ∀ e : HttpError,
          (createOrder db customerId input newId now).1 ≠ .error e := by
        intro e
        simp only [createOrder, hfr,
          if_neg (show ¬(menuItemsFor db restaurant input).length ≠
            input.items.length by omega)]
        simp
      refine ⟨?_, fun _ => ?_, ?_⟩
      · exact iff_of_false (hnoerr _) (not_not_intro hexists)
      · exact iff_of_false (hnoerr _) (fun h => h hcond)
      · constructor
        · intro _; exact ⟨hexists, hcond⟩
        · intro _
          rcases hv : (createOrder db customerId input newId now).1 with e | a
          · exact absurd hv (hnoerr e)
          · exact ⟨a, rfl⟩
    · have hcond : ¬ ((input.items.map (fun item => item.menuItemId)).Nodup ∧
          ∀ item ∈ input.items, resolves db input.restaurantId item) := by
        intro h
        exact hlen ((length_check_iff hnodup hrid).mpr h)
      have hval : (createOrder db customerId input newId now).1 =
          .error ⟨400, "Some menu items are unavailable"⟩ := by
        simp [createOrder, hfr, if_pos hlen]
      refine ⟨?_, fun _ => ?_, ?_⟩
      · simp [hval, hexists]
      · simp [hval, hcond]
      · simp [hval, hcond]

theorem c3_error_characterization_witness :
    ∃ ann, (createOrder wDb "c1" wInput "o2" ⟨20000, 9⟩).1 = .ok ann :=
  (c3_error_characterization wDb "c1" wInput "o2" ⟨20000, 9⟩ (by decide)).2.2.mpr
    ⟨by decide, by decide, by decide⟩

/-! ## Route updates (`updateOrderRoute`) -/

/-- The `UpdateRouteInput` payload; `none` models an omitted field. -/
structure UpdateRouteInput where
  routeOrigin : Option String
  routeDestination : Option String
  pickupEtaMin : Option Int
deriving DecidableEq, Repr

/-- `ROUTE_UPDATEABLE_STATUSES`: orders may only be re-routed while PENDING
or PREPARING. -/
def ROUTE_UPDATEABLE_STATUSES : List OrderStatus := [.PENDING, .PREPARING]

/-- The 400 message naming the current status. -/
def routeStatusMessage (s : OrderStatus) : String :=
  "Cannot update route for order with status " ++ statusName s ++
    ". Only orders with status PENDING or PREPARING can be re-routed."

/-- A supplied `pickupEtaMin` that is not positive (checked while the update
object is being built, before the emptiness check). -/
def badEta (input : UpdateRouteInput) : Bool :=
  match input.pickupEtaMin with
  | some e => e ≤ 0
  | none => false

/-- `Object.keys(updateData).length === 0`: with a valid `pickupEtaMin`, the
update object is empty exactly when all three fields were omitted. -/
def emptyUpdate (input : UpdateRouteInput) : Bool :=
  input.routeOrigin.isNone && input.routeDestination.isNone &&
    input.pickupEtaMin.isNone

/-- `updateOrderRoute(orderId, customerId, input)`. -/
def updateOrderRoute (db : Db) (orderId customerId : String)
    (input : UpdateRouteInput) : Except HttpError AnnotatedOrder × Db :=
  match db.orders.find? (fun o => o.id == orderId) with
  | none => (.error ⟨404, "Order not found"⟩, db)
  | some order =>
    if order.customerId ≠ customerId then (.error ⟨404, "Order not found"⟩, db)
    else if order.status ∉ ROUTE_UPDATEABLE_STATUSES then
      (.error ⟨400, routeStatusMessage order.status⟩, db)
    else if badEta input then
      (.error ⟨400, "pickupEtaMin must be a positive number"⟩, db)
    else if emptyUpdate input then
      (.error ⟨400, "At least one route field must be provided"⟩, db)
    else
      let updated := { order with
        routeOrigin := input.routeOrigin.getD order.routeOrigin,
        routeDestination := input.routeDestination.getD order.routeDestination,
        pickupEtaMin := input.pickupEtaMin.getD order.pickupEtaMin }
      (.ok (attachFinancials updated),
        { db with orders := replaceOrder db.orders orderId updated })

/-- C8: `updateOrderRoute` fails with NotFound when the order is missing or
owned by another customer; with BadRequest naming the current status when the
status is not PENDING/PREPARING; with BadRequest when a supplied
`pickupEtaMin` is not positive; with BadRequest when no field is supplied;
and each failure leaves the store unchanged. -/
theorem c8_route_update_error_handling (db : Db) (orderId customerId : String)
    (input : UpdateRouteInput) :
    (db.orders.find? (fun o => o.id == orderId) = none →
      updateOrderRoute db orderId customerId input =
        (.error ⟨404, "Order not found"⟩, db)) ∧
    (∀ order, db.orders.find? (fun o => o.id == orderId) = some order →
      order.customerId ≠ customerId →
      updateOrderRoute db orderId customerId input =
        (.error ⟨404, "Order not found"⟩, db)) ∧
    (∀ order, db.orders.find? (fun o => o.id == orderId) = some order →
      order.customerId = customerId →
      order.status ∉ ROUTE_UPDATEABLE_STATUSES →
      updateOrderRoute db orderId customerId input =
        (.error ⟨400, routeStatusMessage order.status⟩, db)) ∧
    (∀ order, db.orders.find? (fun o => o.id == orderId) = some order →
      order.customerId = customerId →
      order.status ∈ ROUTE_UPDATEABLE_STATUSES →
      ∀ e, input.pickupEtaMin = some e → e ≤ 0 →
      updateOrderRoute db orderId customerId input =
        (.error ⟨400, "pickupEtaMin must be a positive number"⟩, db)) ∧
    (∀ order, db.orders.find? (fun o => o.id == orderId) = some order →
      order.customerId = customerId →
      order.status ∈ ROUTE_UPDATEABLE_STATUSES →
      input.routeOrigin = none → input.routeDestination = none →
      input.pickupEtaMin = none →
      updateOrderRoute db orderId customerId input =
        (.error ⟨400, "At least one route field must be provided"⟩, db)) := by
  refine ⟨?_, ?_, ?_, ?_, ?_⟩
  · intro hfind
    simp [updateOrderRoute, hfind]
  · intro order hfind howner
    simp [updateOrderRoute, hfind, howner]
  · intro order hfind howner hstatus
    simp [updateOrderRoute, hfind, howner, hstatus]
  · intro order hfind howner hstatus e heta he
    simp [updateOrderRoute, hfind, howner, hstatus, badEta, heta, he]
  · intro order hfind howner hstatus ho hd he
    simp [updateOrderRoute, hfind, howner, hstatus, badEta, emptyUpdate,
      ho, hd, he]

theorem c8_route_update_error_handling_witness :
    updateOrderRoute wDb "o1" "c1" ⟨none, none, none⟩ =
      (.error ⟨400, "At least one route field must be provided"⟩, wDb) :=
  (c8_route_update_error_handling wDb "o1" "c1" ⟨none, none, none⟩).2.2.2.2
    wOrder (by rfl) (by rfl) (by decide) rfl rfl rfl

/-- C9: a successful `updateOrderRoute` merges exactly the supplied fields:
omitted route fields keep their previous values, and every field outside
`routeOrigin`/`routeDestination`/`pickupEtaMin` (ids, status, totals,
createdAt, items) is unchanged; the merged order is what gets persisted. -/
theorem c9_route_update_merges_only_supplied (db : Db)
    (orderId customerId : String) (input : UpdateRouteInput) (order : Order)
    (hfind : db.orders.find? (fun o => o.id == orderId) = some order)
    (ann : AnnotatedOrder) (db' : Db)
    (hok : updateOrderRoute db orderId customerId input = (.ok ann, db')) :
    ann.order.routeOrigin = input.routeOrigin.getD order.routeOrigin ∧
    ann.order.routeDestination =
      input.routeDestination.getD order.routeDestination ∧
    ann.order.pickupEtaMin = input.pickupEtaMin.getD order.pickupEtaMin ∧
    (input.routeOrigin = none → ann.order.routeOrigin = order.routeOrigin) ∧
    (input.routeDestination = none →
      ann.order.routeDestination = order.routeDestination) ∧
    (input.pickupEtaMin = none →
      ann.order.pickupEtaMin = order.pickupEtaMin) ∧
    ann.order.id = order.id ∧
    ann.order.customerId = order.customerId ∧
    ann.order.restaurantId = order.restaurantId ∧
    ann.order.status = order.status ∧
    ann.order.totalCents = order.totalCents ∧
    ann.order.createdAt = order.createdAt ∧
    ann.order.items = order.items ∧
    db'.orders.find? (fun o => o.id == orderId) = some ann.order := by
  by_cases howner : order.customerId = customerId
  · by_cases hstatus : order.status ∈ ROUTE_UPDATEABLE_STATUSES
    · by_cases heta : badEta input = true
      · simp [updateOrderRoute, hfind, howner, hstatus, heta] at hok
      · by_cases hempty : emptyUpdate input = true
        · simp [updateOrderRoute, hfind, howner, hstatus, heta, hempty] at hok
        · simp only [updateOrderRoute, hfind] at hok
          rw [if_neg (fun h => h howner)] at hok
          rw [if_neg (not_not_intro hstatus)] at hok
          rw [if_neg heta] at hok
          rw [if_neg hempty] at hok
          rw [Prod.ext_iff] at hok
          obtain ⟨hann, hdb'⟩ := hok
          simp only [Except.ok.injEq] at hann
          subst hann
          subst hdb'
          refine ⟨rfl, rfl, rfl, ?_, ?_, ?_, rfl, rfl, rfl, rfl, rfl, rfl, rfl, ?_⟩
          · intro h; simp [attachFinancials, h]
          · intro h; simp [attachFinancials, h]
          · intro h; simp [attachFinancials, h]
          · exact find?_replaceOrder _ _ _ _ hfind rfl
    · simp [updateOrderRoute, hfind, howner, hstatus] at hok
  · simp [updateOrderRoute, hfind, howner] at hok

/-- A concrete route-update payload supplying origin and ETA only. -/
def wRouteInput : UpdateRouteInput := ⟨some "X", none, some 5⟩

/-- `wOrder` after the route update `wRouteInput`. -/
def wOrder9 : Order := { wOrder with routeOrigin := "X", pickupEtaMin := 5 }

theorem c9_route_update_merges_only_supplied_witness :
    (attachFinancials wOrder9).order.routeDestination =
      wRouteInput.routeDestination.getD wOrder.routeDestination ∧
    (attachFinancials wOrder9).order.status = wOrder.status := by
  have h := c9_route_update_merges_only_supplied wDb "o1" "c1" wRouteInput
    wOrder (by rfl) (attachFinancials wOrder9)
    { wDb with orders := replaceOrder wDb.orders "o1" wOrder9 } (by rfl)
  obtain ⟨h1, h2, h3, h4, h5, h6, h7, h8, h9, h10, h11, h12, h13, h14⟩ := h
  exact ⟨h2, h10⟩

/-! ## Read endpoints and the financial-annotation invariant -/

/-- A sort key for `createdAt` (day-then-hour, the resolution the model
keeps). -/
def createdAtKey (d : DateTime) : Nat := d.epochDay * 24 + d.hour.val

/-- The store's ordering of the `OrderStatus` enum (declaration order). -/
def statusIdx : OrderStatus → Nat
  | .PENDING => 0
  | .PREPARING => 1
  | .READY => 2
  | .COMPLETED => 3
  | .CANCELED => 4

/-- `orderBy: [{ status: "asc" }, { createdAt: "asc" }]`. -/
def restaurantOrderLe (a b : Order) : Prop :=
  statusIdx a.status < statusIdx b.status ∨
    (statusIdx a.status = statusIdx b.status ∧
      createdAtKey a.createdAt ≤ createdAtKey b.createdAt)

instance : DecidableRel restaurantOrderLe := by
  unfold restaurantOrderLe; infer_instance

/-- `listOrdersForUser(customerId)`: the customer's orders, newest first,
each annotated by `attachFinancials`. -/
def listOrdersForUser (db : Db) (customerId : String) : List AnnotatedOrder :=
  (List.insertionSort
      (fun a b => createdAtKey b.createdAt ≤ createdAtKey a.createdAt)
      (db.orders.filter (fun o => o.customerId == customerId))).map
    (fun o => attachFinancials o)

/-- `listOrdersForRestaurant(restaurantId)`: the restaurant's orders sorted
by status then createdAt, each annotated by `attachFinancials`. -/
def listOrdersForRestaurant (db : Db) (restaurantId : String) :
    List AnnotatedOrder :=
  (List.insertionSort restaurantOrderLe
      (db.orders.filter (fun o => o.restaurantId == restaurantId))).map
    (fun o => attachFinancials o)

/-- `getOrderForCustomer(orderId, customerId)`. -/
def getOrderForCustomer (db : Db) (orderId customerId : String) :
    Except HttpError AnnotatedOrder :=
  match db.orders.find? (fun o => o.id == orderId) with
  | none => .error ⟨404, "Order not found"⟩
  | some order =>
    if order.customerId ≠ customerId then .error ⟨404, "Order not found"⟩
    else .ok (attachFinancials order)

/-- The C10 invariant on an annotated order: the subtotal is recomputed from
the items, the tax is the clamped difference to the stored total, and the
financial identity holds exactly when the total covers the subtotal. -/
def finInvariant (a : AnnotatedOrder) : Prop :=
  a.subtotalCents = calculateSubtotal a.order.items ∧
  a.taxCents = ((a.order.totalCents : Int) - (a.subtotalCents : Int)).toNat ∧
  (a.subtotalCents + a.taxCents = a.order.totalCents ↔
    a.subtotalCents ≤ a.order.totalCents)

lemma finInvariant_attach (order : Order) :
    finInvariant (attachFinancials order) := by
  refine ⟨rfl, rfl, ?_⟩
  simp only [attachFinancials]
  omega

lemma finInvariant_attach_override (order : Order) (s : Nat)
    (hsub : calculateSubtotal order.items = s)
    (htot : order.totalCents = s + taxOf s) :
    finInvariant (attachFinancials order (some (s, taxOf s))) := by
  unfold finInvariant attachFinancials
  simp only
  exact ⟨hsub.symm, by omega, by omega⟩

lemma updateOrderStatusForRestaurant_ok_shape {db : Db}
    {restaurantId orderId : String} {nextStatus : OrderStatus}
    {a : AnnotatedOrder} {db' : Db}
    (hok : updateOrderStatusForRestaurant db restaurantId orderId nextStatus =
      (.ok a, db')) : ∃ o, a = attachFinancials o := by
  rcases hfind : db.orders.find? (fun o => o.id == orderId) with _ | order
  · simp [updateOrderStatusForRestaurant, hfind] at hok
  · by_cases howner : order.restaurantId ≠ restaurantId
    · simp [updateOrderStatusForRestaurant, hfind, howner] at hok
    · by_cases hsame : order.status = nextStatus
      · refine ⟨order, ?_⟩
        simp [updateOrderStatusForRestaurant, hfind, howner, hsame] at hok
        exact hok.1.symm
      · by_cases htrans : nextStatus ∈ STATUS_TRANSITIONS order.status
        · refine ⟨{ order with status := nextStatus }, ?_⟩
          simp [updateOrderStatusForRestaurant, hfind, howner, hsame,
            htrans] at hok
          exact hok.1.symm
        · simp [updateOrderStatusForRestaurant, hfind, howner, hsame,
            htrans] at hok

lemma updateOrderRoute_ok_shape {db : Db} {orderId customerId : String}
    {input : UpdateRouteInput} {a : AnnotatedOrder} {db' : Db}
    (hok : updateOrderRoute db orderId customerId input = (.ok a, db')) :
    ∃ o, a = attachFinancials o := by
  rcases hfind : db.orders.find? (fun o => o.id == orderId) with _ | order
  · simp [updateOrderRoute, hfind] at hok
  · by_cases howner : order.customerId ≠ customerId
    · simp [updateOrderRoute, hfind, howner] at hok
    · by_cases hstatus : order.status ∈ ROUTE_UPDATEABLE_STATUSES
      · by_cases heta : badEta input = true
        · simp [updateOrderRoute, hfind, howner, hstatus, heta] at hok
        · by_cases hempty : emptyUpdate input = true
          · simp [updateOrderRoute, hfind, howner, hstatus, heta,
              hempty] at hok
          · simp only [updateOrderRoute, hfind] at hok
            rw [if_neg howner] at hok
            rw [if_neg (not_not_intro hstatus)] at hok
            rw [if_neg heta] at hok
            rw [if_neg hempty] at hok
            rw [Prod.ext_iff] at hok
            obtain ⟨hann, _⟩ := hok
            simp only [Except.ok.injEq] at hann
            exact ⟨_, hann.symm⟩
      · simp [updateOrderRoute, hfind, howner,
          (by simpa using hstatus : order.status ∉ ROUTE_UPDATEABLE_STATUSES)] at hok

/-- C10: every annotated order any endpoint returns satisfies the financial
invariant: `subtotalCents` is the sum of `priceCents × quantity` over its
items, `taxCents = max(totalCents − subtotalCents, 0)`, and
`subtotalCents + taxCents = totalCents` exactly when
`totalCents ≥ subtotalCents`. -/
theorem c10_financial_annotations (db : Db) :
    (∀ customerId, ∀ a ∈ listOrdersForUser db customerId, finInvariant a) ∧
    (∀ restaurantId, ∀ a ∈ listOrdersForRestaurant db restaurantId,
      finInvariant a) ∧
    (∀ orderId customerId a,
      getOrderForCustomer db orderId customerId = .ok a → finInvariant a) ∧
    (∀ restaurantId orderId nextStatus a db',
      updateOrderStatusForRestaurant db restaurantId orderId nextStatus =
        (.ok a, db') → finInvariant a) ∧
    (∀ orderId customerId input a db',
      updateOrderRoute db orderId customerId input = (.ok a, db') →
        finInvariant a) ∧
    (∀ customerId input newId now a db',
      createOrder db customerId input newId now = (.ok a, db') →
        finInvariant a) := by
  refine ⟨?_, ?_, ?_, ?_, ?_, ?_⟩
  · intro customerId a ha
    rcases List.mem_map.mp ha with ⟨o, _, rfl⟩
    exact finInvariant_attach o
  · intro restaurantId a ha
    rcases List.mem_map.mp ha with ⟨o, _, rfl⟩
    exact finInvariant_attach o
  · intro orderId customerId a hok
    rcases hfind : db.orders.find? (fun o => o.id == orderId) with _ | order
    · simp [getOrderForCustomer, hfind] at hok
    · by_cases howner : order.customerId ≠ customerId
      · simp [getOrderForCustomer, hfind, howner] at hok
      · simp [getOrderForCustomer, hfind, howner] at hok
        rw [← hok]
        exact finInvariant_attach order
  · intro restaurantId orderId nextStatus a db' hok
    rcases updateOrderStatusForRestaurant_ok_shape hok with ⟨o, rfl⟩
    exact finInvariant_attach o
  · intro orderId customerId input a db' hok
    rcases updateOrderRoute_ok_shape hok with ⟨o, rfl⟩
    exact finInvariant_attach o
  · intro customerId input newId now a db' hok
    rcases hfr : db.restaurants.find?
        (fun r => r.id == input.restaurantId && r.isActive) with _ | restaurant
    · simp [createOrder, hfr] at hok
    · by_cases hlen : (menuItemsFor db restaurant input).length =
          input.items.length
      · simp only [createOrder, hfr,
          if_neg (show ¬(menuItemsFor db restaurant input).length ≠
            input.items.length by omega)] at hok
        rw [Prod.ext_iff] at hok
        obtain ⟨hann, _⟩ := hok
        simp only [Except.ok.injEq] at hann
        subst hann
        apply finInvariant_attach_override
        · simp only [calculateSubtotal, List.foldl_map]
        · rfl
      · simp [createOrder, hfr, if_pos hlen] at hok

theorem c10_financial_annotations_witness :
    finInvariant (attachFinancials wOrder) :=
  (c10_financial_annotations wDb).2.2.1 "o1" "c1" (attachFinancials wOrder)
    (by rfl)

/-! ## JS `Map` accumulation

Both analytics services accumulate statistics in a JS `Map` with the pattern
"get the entry; mutate it if present, otherwise set a fresh one".  A JS `Map`
iterates in insertion order, so the whole pattern is a fold over an
association list that appends new keys at the tail (`jsGroupBy`), and its
result is characterized by `groupSpec`: one entry per distinct key in order
of first appearance, accumulated over the rows with that key. -/

/-- Append a value to an accumulator list unless already present (JS
`Set.add`, and the key order of a JS `Map`). -/
def insertNew {κ : Type} [DecidableEq κ] (acc : List κ) (k : κ) : List κ :=
  if k ∈ acc then acc else acc ++ [k]

/-- The distinct values of `l` in order of first appearance. -/
def firstDedup {κ : Type} [DecidableEq κ] (l : List κ) : List κ :=
  l.foldl insertNew []

/-- One JS `Map` accumulation step. -/
def jsGroupStep {κ α σ : Type} [DecidableEq κ] (key : α → κ) (init : α → σ)
    (upd : σ → α → σ) (gs : List (κ × σ)) (a : α) : List (κ × σ) :=
  if key a ∈ gs.map Prod.fst then
    gs.map (fun g => if g.1 = key a then (g.1, upd g.2 a) else g)
  else gs ++ [(key a, init a)]

/-- A JS `Map` accumulation over a list of rows. -/
def jsGroupBy {κ α σ : Type} [DecidableEq κ] (key : α → κ) (init : α → σ)
    (upd : σ → α → σ) (l : List α) : List (κ × σ) :=
  l.foldl (jsGroupStep key init upd) []

/-- Accumulate a group: `init` on the first row, `upd` on the rest. -/
def accRun {α σ : Type} (init : α → σ) (upd : σ → α → σ) : List α → Option σ
  | [] => none
  | a :: as => some (as.foldl upd (init a))

/-- The canonical form of a JS `Map` accumulation. -/
def groupSpec {κ α σ : Type} [DecidableEq κ] [Inhabited σ] (key : α → κ)
    (init : α → σ) (upd : σ → α → σ) (l : List α) : List (κ × σ) :=
  (firstDedup (l.map key)).map (fun k =>
    (k, (accRun init upd (l.filter (fun a => key a = k))).getD default))

lemma mem_foldl_insertNew {κ : Type} [DecidableEq κ] (l : List κ) :
    ∀ (acc : List κ) (x : κ), x ∈ l.foldl insertNew acc ↔ x ∈ acc ∨ x ∈ l := by
  induction l with
  | nil => simp
  | cons k l ih =>
    intro acc x
    rw [List.foldl_cons, ih]
    by_cases hk : k ∈ acc
    · simp only [insertNew, if_pos hk, List.mem_cons]
      constructor
      · rintro (h | h)
        · exact Or.inl h
        · exact Or.inr (Or.inr h)
      · rintro (h | rfl | h)
        · exact Or.inl h
        · exact Or.inl hk
        · exact Or.inr h
    · simp only [insertNew, if_neg hk, List.mem_append, List.mem_singleton,
        List.mem_cons]
      tauto

lemma mem_firstDedup {κ : Type} [DecidableEq κ] {l : List κ} {x : κ} :
    x ∈ firstDedup l ↔ x ∈ l := by
  rw [firstDedup, mem_foldl_insertNew]
  simp

lemma firstDedup_snoc {κ : Type} [DecidableEq κ] (l : List κ) (k : κ) :
    firstDedup (l ++ [k]) =
      if k ∈ l then firstDedup l else firstDedup l ++ [k] := by
  rw [firstDedup, List.foldl_append, List.foldl_cons, List.foldl_nil]
  rw [show l.foldl insertNew [] = firstDedup l from rfl, insertNew]
  by_cases hk : k ∈ l
  · rw [if_pos (mem_firstDedup.mpr hk), if_pos hk]
  · rw [if_neg (fun h => hk (mem_firstDedup.mp h)), if_neg hk]

lemma nodup_firstDedup {κ : Type} [DecidableEq κ] (l : List κ) :
    (firstDedup l).Nodup := by
  induction l using List.reverseRecOn with
  | nil => simp [firstDedup]
  | append_singleton xs a ih =>
    rw [firstDedup_snoc]
    by_cases ha : a ∈ xs
    · rw [if_pos ha]; exact ih
    · rw [if_neg ha]
      refine List.Nodup.append ih (List.nodup_singleton a) ?_
      intro x hx hx'
      rw [List.mem_singleton] at hx'
      subst hx'
      exact ha (mem_firstDedup.mp hx)

lemma accRun_snoc {α σ : Type} [Inhabited σ] (init : α → σ) (upd : σ → α → σ)
    (l : List α) (a : α) (hne : l ≠ []) :
    accRun init upd (l ++ [a]) =
      some (upd ((accRun init upd l).getD default) a) := by
  cases l with
  | nil => exact absurd rfl hne
  | cons b bs =>
    simp [accRun, List.foldl_append]

lemma map_fst_groupSpec {κ α σ : Type} [DecidableEq κ] [Inhabited σ]
    (key : α → κ) (init : α → σ) (upd : σ → α → σ) (l : List α) :
    (groupSpec key init upd l).map Prod.fst = firstDedup (l.map key) := by
  rw [groupSpec, List.map_map]
  exact List.map_id _

lemma groupSpec_snoc_mem {κ α σ : Type} [DecidableEq κ] [Inhabited σ]
    {key : α → κ} {init : α → σ} {upd : σ → α → σ} {xs : List α} {a : α}
    (hmem : key a ∈ xs.map key) :
    groupSpec key init upd (xs ++ [a]) =
      (groupSpec key init upd xs).map
        (fun g => if g.1 = key a then (g.1, upd g.2 a) else g) := by
  have h1 : (xs ++ [a]).map key = xs.map key ++ [key a] := by simp
  rw [groupSpec, h1, firstDedup_snoc, if_pos hmem, groupSpec, List.map_map]
  apply List.map_congr_left
  intro k hk
  by_cases hka : k = key a
  · subst hka
    have hfilne : xs.filter (fun x => key x = key a) ≠ [] := by
      rcases List.mem_map.mp hmem with ⟨x, hx, hkx⟩
      exact List.ne_nil_of_mem (List.mem_filter.mpr ⟨hx, by simp [hkx]⟩)
    simp [List.filter_append, List.filter_cons,
      accRun_snoc init upd _ a hfilne]
  · simp only [Function.comp_apply, if_neg hka, List.filter_append,
      List.filter_cons, List.filter_nil, decide_eq_true_eq]
    rw [if_neg (fun h => hka h.symm)]
    simp

lemma groupSpec_snoc_notmem {κ α σ : Type} [DecidableEq κ] [Inhabited σ]
    {key : α → κ} {init : α → σ} {upd : σ → α → σ} {xs : List α} {a : α}
    (hmem : key a ∉ xs.map key) :
    groupSpec key init upd (xs ++ [a]) =
      groupSpec key init upd xs ++ [(key a, init a)] := by
  have h1 : (xs ++ [a]).map key = xs.map key ++ [key a] := by simp
  rw [groupSpec, h1, firstDedup_snoc, if_neg hmem, List.map_append]
  congr 1
  · rw [groupSpec]
    apply List.map_congr_left
    intro k hk
    have hka : ¬(key a = k) := by
      intro h
      exact hmem (h ▸ mem_firstDedup.mp hk)
    simp only [List.filter_append, List.filter_cons, List.filter_nil,
      decide_eq_true_eq]
    rw [if_neg hka]
    simp
  · have hfil : xs.filter (fun x => key x = key a) = [] := by
      rw [List.filter_eq_nil_iff]
      intro x hx
      simp only [decide_eq_true_eq]
      intro h
      exact hmem (h ▸ List.mem_map.mpr ⟨x, hx, rfl⟩)
    simp [List.filter_append, hfil, List.filter_cons, accRun]

/-- A JS `Map` accumulation computes the canonical grouping. -/
theorem jsGroupBy_eq_groupSpec {κ α σ : Type} [DecidableEq κ] [Inhabited σ]
    (key : α → κ) (init : α → σ) (upd : σ → α → σ) (l : List α) :
    jsGroupBy key init upd l = groupSpec key init upd l := by
  induction l using List.reverseRecOn with
  | nil => rfl
  | append_singleton xs a ih =>
    have hstep : jsGroupBy key init upd (xs ++ [a]) =
        jsGroupStep key init upd (jsGroupBy key init upd xs) a := by
      simp [jsGroupBy, List.foldl_append]
    rw [hstep, ih, jsGroupStep]
    by_cases hmem : key a ∈ xs.map key
    · have hin : key a ∈ (groupSpec key init upd xs).map Prod.fst := by
        rw [map_fst_groupSpec]
        exact mem_firstDedup.mpr hmem
      rw [if_pos hin, groupSpec_snoc_mem hmem]
    · have hnotin : key a ∉ (groupSpec key init upd xs).map Prod.fst := by
        rw [map_fst_groupSpec]
        exact fun h => hmem (mem_firstDedup.mp h)
      rw [if_neg hnotin, groupSpec_snoc_notmem hmem]

/-! ## Analytics services -/

/-- The orders every analytics computation starts from: the restaurant's
orders with `status: { not: "CANCELED" }`. -/
def analyticsOrders (db : Db) (restaurantId : String) : List Order :=
  db.orders.filter (fun o =>
    o.restaurantId == restaurantId && !(o.status == OrderStatus.CANCELED))

/-- One entry of `getPeakTimes`. -/
structure PeakTime where
  hour : Nat
  orderCount : Nat
  revenueCents : Nat
deriving DecidableEq, Repr

/-- The 24-bucket hour map of `getPeakTimes` after aggregating the orders,
as a function from the hour to `(orderCount, revenueCents)`. -/
def hourStats (orders : List Order) : Fin 24 → Nat × Nat :=
  orders.foldl
    (fun m o => fun h =>
      if h = o.createdAt.hour then ((m h).1 + 1, (m h).2 + o.totalCents)
      else m h)
    (fun _ => (0, 0))

/-- `getPeakTimes(restaurantId)`: all 24 pre-initialized hour buckets,
sorted by descending order count (stable `Array.sort`). -/
def getPeakTimes (db : Db) (restaurantId : String) : List PeakTime :=
  List.insertionSort (fun a b => b.orderCount ≤ a.orderCount)
    ((List.finRange 24).map (fun h =>
      { hour := h.val,
        orderCount := (hourStats (analyticsOrders db restaurantId) h).1,
        revenueCents := (hourStats (analyticsOrders db restaurantId) h).2 }))

/-- `orderItem.menuItem?.name ?? "Unknown Item"` (the v1 include is non-null
under foreign-key integrity, so the default is never observed there). -/
def menuItemNameOf (db : Db) (menuItemId : String) : String :=
  match db.menuItems.find? (fun m => m.id == menuItemId) with
  | some m => m.name
  | none => "Unknown Item"

/-- One row of the `prisma.orderItem.findMany` in `getPopularItems`: an item
of a non-canceled order joined with the menu item name and the owning order
id. -/
structure OrderItemRow where
  menuItemId : String
  menuItemName : String
  quantity : Nat
  priceCents : Nat
  orderId : String
deriving DecidableEq, Repr

def orderItemRows (db : Db) (restaurantId : String) : List OrderItemRow :=
  (analyticsOrders db restaurantId).flatMap (fun o =>
    o.items.map (fun it =>
      ⟨it.menuItemId, menuItemNameOf db it.menuItemId, it.quantity,
        it.priceCents, o.id⟩))

/-- The `itemMap` accumulator of `getPopularItems` (`orderIds` is the JS
`Set`, kept as its insertion-ordered element list). -/
structure PopAcc where
  menuItemName : String
  totalQuantity : Nat
  orderIds : List String
  revenueCents : Nat
deriving DecidableEq, Repr, Inhabited

def popInit (row : OrderItemRow) : PopAcc :=
  ⟨row.menuItemName, row.quantity, [row.orderId],
    row.priceCents * row.quantity⟩

def popUpd (g : PopAcc) (row : OrderItemRow) : PopAcc :=
  ⟨g.menuItemName, g.totalQuantity + row.quantity,
    insertNew g.orderIds row.orderId,
    g.revenueCents + row.priceCents * row.quantity⟩

/-- One result entry of `getPopularItems`. -/
structure PopularItem where
  menuItemId : String
  menuItemName : String
  totalQuantity : Nat
  orderCount : Nat
  revenueCents : Nat
deriving DecidableEq, Repr

/-- `getPopularItems(restaurantId, limit = 10)`. -/
def getPopularItems (db : Db) (restaurantId : String) (limit : Nat := 10) :
    List PopularItem :=
  (List.insertionSort (fun a b => b.totalQuantity ≤ a.totalQuantity)
    ((jsGroupBy (fun row => row.menuItemId) popInit popUpd
        (orderItemRows db restaurantId)).map
      (fun g => ⟨g.1, g.2.menuItemName, g.2.totalQuantity,
        g.2.orderIds.length, g.2.revenueCents⟩))).take limit

/-- One entry of the second service's `popularItems`. -/
structure PopularItemV2 where
  menuItemId : String
  name : String
  totalQuantity : Nat
  totalRevenueCents : Nat
deriving DecidableEq, Repr

/-- One daily/weekly rollup bucket; `date` is the UTC epoch day standing for
the `YYYY-MM-DD` key (numeric order = lexicographic order of those keys). -/
structure TimeBasedStats where
  date : Nat
  orderCount : Nat
  totalRevenueCents : Nat
  averageOrderValueCents : Nat
deriving DecidableEq, Repr

/-- One entry of `peakOrderingHours`. -/
structure HourCount where
  hour : Nat
  orderCount : Nat
deriving DecidableEq, Repr

/-- The result record of the second `getRestaurantAnalytics`. -/
structure RestaurantAnalytics where
  popularItems : List PopularItemV2
  averageOrderCostCents : Nat
  totalOrders : Nat
  totalRevenueCents : Nat
  ordersByDay : List TimeBasedStats
  ordersByWeek : List TimeBasedStats
  peakOrderingHours : List HourCount
deriving DecidableEq, Repr

/-- `weekStart.setDate(date.getDate() - date.getDay())`, Sunday-aligned:
epoch day 0 (1970-01-01) is a Thursday, so `getDay = (d + 4) % 7` with
Sunday = 0.  (Pre-1970 dates, where the `Nat` subtraction would clamp, are
out of scope.) -/
def weekStartOf (d : Nat) : Nat := d - (d + 4) % 7

/-- `arr.slice(-n)`: the last `n` elements. -/
def takeLast {α : Type} (n : Nat) (l : List α) : List α :=
  l.drop (l.length - n)

/-- A fresh day/week bucket for an order: `{ count: 1, revenue: totalCents }`. -/
def bucketInit (o : Order) : Nat × Nat := (1, o.totalCents)

/-- `existing.count += 1; existing.revenue += order.totalCents`. -/
def bucketUpd (p : Nat × Nat) (o : Order) : Nat × Nat :=
  (p.1 + 1, p.2 + o.totalCents)

/-- A `(date, {count, revenue})` bucket rendered as `TimeBasedStats`. -/
def mkTimeStats (g : Nat × (Nat × Nat)) : TimeBasedStats :=
  ⟨g.1, g.2.1, g.2.2, jsRoundDiv g.2.2 g.2.1⟩

/-- One rollup block of the analytics service: group the orders by a date
key, render the buckets, sort ascending by the key, and keep the most
recent `n` (`.slice(-n)`). -/
def rollup (key : Order → Nat) (n : Nat) (orders : List Order) :
    List TimeBasedStats :=
  takeLast n (List.insertionSort (fun a b => a.date ≤ b.date)
    ((jsGroupBy key bucketInit bucketUpd orders).map mkTimeStats))

/-- The body of the second `getRestaurantAnalytics`, computed from the
fetched non-canceled orders (`nameOf` resolves a menu item id to its name). -/
def analyticsOfOrders (nameOf : String → String) (orders : List Order) :
    RestaurantAnalytics :=
  let totalOrders := orders.length
  let totalRevenueCents := orders.foldl (fun sum o => sum + o.totalCents) 0
  let averageOrderCostCents :=
    if totalOrders > 0 then jsRoundDiv totalRevenueCents totalOrders else 0
  let ordersByDay := rollup (fun o => o.createdAt.epochDay) 30 orders
  let ordersByWeek :=
    rollup (fun o => weekStartOf o.createdAt.epochDay) 12 orders
  let peakOrderingHours :=
    (List.insertionSort (fun a b => b.orderCount ≤ a.orderCount)
      ((jsGroupBy (fun o => o.createdAt.hour.val) (fun _ => 1)
          (fun c _ => c + 1) orders).map
        (fun g => (⟨g.1, g.2⟩ : HourCount)))).take 5
  let popularItems :=
    List.insertionSort (fun a b => b.totalQuantity ≤ a.totalQuantity)
      ((jsGroupBy (fun it => it.menuItemId)
          (fun it => (nameOf it.menuItemId, it.quantity,
            it.priceCents * it.quantity))
          (fun g it => (g.1, g.2.1 + it.quantity,
            g.2.2 + it.priceCents * it.quantity))
          (orders.flatMap (fun o => o.items))).map
        (fun g => (⟨g.1, g.2.1, g.2.2.1, g.2.2.2⟩ : PopularItemV2)))
  ⟨popularItems, averageOrderCostCents, totalOrders, totalRevenueCents,
    ordersByDay, ordersByWeek, peakOrderingHours⟩

/-- The second `getRestaurantAnalytics(restaurantId)`. -/
def getRestaurantAnalytics (db : Db) (restaurantId : String) :
    RestaurantAnalytics :=
  analyticsOfOrders (fun id => menuItemNameOf db id)
    (analyticsOrders db restaurantId)

instance : IsTotal PeakTime (fun a b => b.orderCount ≤ a.orderCount) :=
  ⟨fun a b => le_total b.orderCount a.orderCount⟩

instance : IsTrans PeakTime (fun a b => b.orderCount ≤ a.orderCount) :=
  ⟨fun _ _ _ hab hbc => le_trans hbc hab⟩

instance : IsTotal HourCount (fun a b => b.orderCount ≤ a.orderCount) :=
  ⟨fun a b => le_total b.orderCount a.orderCount⟩

instance : IsTrans HourCount (fun a b => b.orderCount ≤ a.orderCount) :=
  ⟨fun _ _ _ hab hbc => le_trans hbc hab⟩

instance : IsTotal PopularItem (fun a b => b.totalQuantity ≤ a.totalQuantity) :=
  ⟨fun a b => le_total b.totalQuantity a.totalQuantity⟩

instance : IsTrans PopularItem (fun a b => b.totalQuantity ≤ a.totalQuantity) :=
  ⟨fun _ _ _ hab hbc => le_trans hbc hab⟩

instance : IsTotal TimeBasedStats (fun a b => a.date ≤ b.date) :=
  ⟨fun a b => le_total a.date b.date⟩

instance : IsTrans TimeBasedStats (fun a b => a.date ≤ b.date) :=
  ⟨fun _ _ _ hab hbc => le_trans hab hbc⟩

lemma mem_jsGroupBy {κ α σ : Type} [DecidableEq κ] [Inhabited σ]
    {key : α → κ} {init : α → σ} {upd : σ → α → σ} {l : List α} {g : κ × σ}
    (hg : g ∈ jsGroupBy key init upd l) :
    g.1 ∈ l.map key ∧
      g.2 = (accRun init upd (l.filter (fun a => key a = g.1))).getD default := by
  rw [jsGroupBy_eq_groupSpec, groupSpec] at hg
  rcases List.mem_map.mp hg with ⟨k, hk, hgk⟩
  cases hgk
  exact ⟨mem_firstDedup.mp hk, rfl⟩

lemma map_fst_jsGroupBy {κ α σ : Type} [DecidableEq κ] [Inhabited σ]
    (key : α → κ) (init : α → σ) (upd : σ → α → σ) (l : List α) :
    (jsGroupBy key init upd l).map Prod.fst = firstDedup (l.map key) := by
  rw [jsGroupBy_eq_groupSpec]
  exact map_fst_groupSpec key init upd l

lemma filter_key_ne_nil {κ α : Type} [DecidableEq κ] {key : α → κ}
    {l : List α} {k : κ} (hk : k ∈ l.map key) :
    l.filter (fun a => key a = k) ≠ [] := by
  rcases List.mem_map.mp hk with ⟨x, hx, rfl⟩
  exact List.ne_nil_of_mem (List.mem_filter.mpr ⟨hx, by simp⟩)

lemma foldl_bucketUpd (os : List Order) :
    ∀ p : Nat × Nat, os.foldl bucketUpd p =
      (p.1 + os.length, p.2 + (os.map (fun o => o.totalCents)).sum) := by
  induction os with
  | nil => intro p; simp
  | cons o os ih =>
    intro p
    rw [List.foldl_cons, ih]
    simp only [bucketUpd, List.length_cons, List.map_cons, List.sum_cons,
      Prod.ext_iff]
    constructor <;> omega

lemma accRun_bucket {l : List Order} (hne : l ≠ []) :
    (accRun bucketInit bucketUpd l).getD default =
      (l.length, (l.map (fun o => o.totalCents)).sum) := by
  cases l with
  | nil => exact absurd rfl hne
  | cons o os =>
    simp only [accRun, Option.getD_some]
    rw [foldl_bucketUpd]
    simp [bucketInit, Prod.ext_iff]
    omega

lemma foldl_countUpd (os : List Order) :
    ∀ c : Nat, os.foldl (fun c _ => c + 1) c = c + os.length := by
  induction os with
  | nil => intro c; simp
  | cons o os ih =>
    intro c
    rw [List.foldl_cons, ih]
    simp only [List.length_cons]
    omega

lemma accRun_count {l : List Order} (hne : l ≠ []) :
    (accRun (fun _ => (1 : Nat)) (fun c _ => c + 1) l).getD default =
      l.length := by
  cases l with
  | nil => exact absurd rfl hne
  | cons o os =>
    simp only [accRun, Option.getD_some]
    rw [foldl_countUpd]
    simp only [List.length_cons]
    omega

lemma foldl_popUpd (as : List OrderItemRow) :
    ∀ g : PopAcc, as.foldl popUpd g =
      ⟨g.menuItemName,
        g.totalQuantity + (as.map (fun r => r.quantity)).sum,
        as.foldl (fun s r => insertNew s r.orderId) g.orderIds,
        g.revenueCents + (as.map (fun r => r.priceCents * r.quantity)).sum⟩ := by
  induction as with
  | nil =>
    intro g
    cases g
    simp
  | cons r as ih =>
    intro g
    rw [List.foldl_cons, ih]
    cases g
    simp only [popUpd, List.map_cons, List.sum_cons, List.foldl_cons,
      PopAcc.mk.injEq]
    refine ⟨trivial, by omega, trivial, by omega⟩

lemma accRun_pop {l : List OrderItemRow} (hne : l ≠ []) :
    ((accRun popInit popUpd l).getD default).totalQuantity =
        (l.map (fun r => r.quantity)).sum ∧
      ((accRun popInit popUpd l).getD default).orderIds =
        firstDedup (l.map (fun r => r.orderId)) ∧
      ((accRun popInit popUpd l).getD default).revenueCents =
        (l.map (fun r => r.priceCents * r.quantity)).sum := by
  cases l with
  | nil => exact absurd rfl hne
  | cons a as =>
    simp only [accRun, Option.getD_some]
    rw [foldl_popUpd]
    refine ⟨by simp [popInit], ?_, by simp [popInit]⟩
    rw [firstDedup, List.map_cons, List.foldl_cons, List.foldl_map]
    rfl

lemma foldl_hourStep (orders : List Order) :
    ∀ (m : Fin 24 → Nat × Nat) (h : Fin 24),
      (orders.foldl
        (fun m o => fun h =>
          if h = o.createdAt.hour then ((m h).1 + 1, (m h).2 + o.totalCents)
          else m h) m) h =
      ((m h).1 + (orders.filter (fun o => o.createdAt.hour = h)).length,
       (m h).2 + ((orders.filter (fun o => o.createdAt.hour = h)).map
         (fun o => o.totalCents)).sum) := by
  induction orders with
  | nil => intro m h; simp
  | cons o os ih =>
    intro m h
    rw [List.foldl_cons, ih]
    by_cases hh : h = o.createdAt.hour
    · subst hh
      simp only [List.filter_cons, if_pos rfl, decide_eq_true_eq,
        eq_self_iff_true, if_true, List.length_cons, List.map_cons,
        List.sum_cons, Prod.ext_iff]
      constructor <;> omega
    · have hh' : ¬(o.createdAt.hour = h) := fun e => hh e.symm
      simp only [List.filter_cons, decide_eq_true_eq, hh', if_false, hh,
        if_neg hh]

lemma hourStats_eq (orders : List Order) (h : Fin 24) :
    hourStats orders h =
      ((orders.filter (fun o => o.createdAt.hour = h)).length,
       ((orders.filter (fun o => o.createdAt.hour = h)).map
         (fun o => o.totalCents)).sum) := by
  rw [hourStats, foldl_hourStep]
  simp

lemma length_firstDedup {κ : Type} [DecidableEq κ] (l : List κ) :
    (firstDedup l).length = l.toFinset.card := by
  have hnd := nodup_firstDedup l
  have hts : (firstDedup l).toFinset = l.toFinset := by
    ext x
    simp [List.mem_toFinset, mem_firstDedup]
  rw [← List.toFinset_card_of_nodup hnd, hts]

lemma takeLast_recent {α : Type} {keyOf : α → Nat} {l : List α} {n k : Nat}
    (hsorted : l.Pairwise (fun x y => keyOf x ≤ keyOf y))
    (hk : k ∈ l.map keyOf)
    (hnot : k ∉ (takeLast n l).map keyOf) :
    (takeLast n l).length = n ∧ ∀ b ∈ takeLast n l, k < keyOf b := by
  by_cases hlen : l.length ≤ n
  · have heq : takeLast n l = l := by
      simp [takeLast, Nat.sub_eq_zero_of_le hlen]
    rw [heq] at hnot
    exact absurd hk hnot
  · push_neg at hlen
    constructor
    · simp only [takeLast, List.length_drop]
      omega
    · intro b hb
      have hsplit : l.take (l.length - n) ++ l.drop (l.length - n) = l :=
        List.take_append_drop _ _
      have hp : (l.take (l.length - n) ++
          l.drop (l.length - n)).Pairwise (fun x y => keyOf x ≤ keyOf y) := by
        rw [hsplit]
        exact hsorted
      have hk' : ∃ x ∈ l.take (l.length - n), keyOf x = k := by
        rcases List.mem_map.mp hk with ⟨x, hx, rfl⟩
        rw [← hsplit] at hx
        rcases List.mem_append.mp hx with hx1 | hx2
        · exact ⟨x, hx1, rfl⟩
        · exact absurd (List.mem_map.mpr ⟨x, hx2, rfl⟩) hnot
      rcases hk' with ⟨x, hxtake, hxdate⟩
      have hle : keyOf x ≤ keyOf b :=
        (List.pairwise_append.mp hp).2.2 x hxtake b hb
      have hne : k ≠ keyOf b :=
        fun h => hnot (h ▸ List.mem_map.mpr ⟨b, hb, rfl⟩)
      omega

/-- C4: every analytics computation runs over the restaurant's non-canceled
orders only: `totalOrders` is their count, `totalRevenueCents` the sum of
their `totalCents`, `averageOrderCostCents` the rounded quotient (0 when
there are no orders), no CANCELED order is in the aggregated set, and the
whole analytics result is unchanged when all CANCELED orders are removed
from the store (so a CANCELED order contributes to no total, bucket, or
ranking). -/
theorem c4_analytics_excludes_canceled (db : Db) (restaurantId : String) :
    (getRestaurantAnalytics db restaurantId).totalOrders =
      (analyticsOrders db restaurantId).length ∧
    (getRestaurantAnalytics db restaurantId).totalRevenueCents =
      ((analyticsOrders db restaurantId).map (fun o => o.totalCents)).sum ∧
    (getRestaurantAnalytics db restaurantId).averageOrderCostCents =
      (if 0 < (analyticsOrders db restaurantId).length then
        jsRoundDiv
          (((analyticsOrders db restaurantId).map (fun o => o.totalCents)).sum)
          ((analyticsOrders db restaurantId).length)
       else 0) ∧
    (∀ o ∈ analyticsOrders db restaurantId, o.status ≠ OrderStatus.CANCELED) ∧
    getRestaurantAnalytics db restaurantId =
      getRestaurantAnalytics
        { db with orders :=
            db.orders.filter (fun o => !(o.status == OrderStatus.CANCELED)) }
        restaurantId := by
  have hrev : (analyticsOrders db restaurantId).foldl
      (fun sum o => sum + o.totalCents) 0 =
      ((analyticsOrders db restaurantId).map (fun o => o.totalCents)).sum := by
    rw [foldl_add_eq_sum_map]
    exact Nat.zero_add _
  refine ⟨rfl, ?_, ?_, ?_, ?_⟩
  · exact hrev
  · show (if 0 < (analyticsOrders db restaurantId).length then
        jsRoundDiv ((analyticsOrders db restaurantId).foldl
          (fun sum o => sum + o.totalCents) 0)
          (analyticsOrders db restaurantId).length
      else 0) = _
    rw [hrev]
  · intro o ho
    have := (List.mem_filter.mp ho).2
    simp only [Bool.and_eq_true, Bool.not_eq_true', beq_eq_false_iff_ne,
      ne_eq] at this
    exact this.2
  · have horders : analyticsOrders
        { db with orders :=
            db.orders.filter (fun o => !(o.status == OrderStatus.CANCELED)) }
        restaurantId = analyticsOrders db restaurantId := by
      simp only [analyticsOrders]
      rw [List.filter_filter]
      apply List.filter_congr
      intro o _
      cases h : (o.status == OrderStatus.CANCELED) <;> simp [h]
    rw [getRestaurantAnalytics, getRestaurantAnalytics, horders]
    rfl

theorem c4_analytics_excludes_canceled_witness :
    wOrder.status ≠ OrderStatus.CANCELED :=
  (c4_analytics_excludes_canceled wDb "r1").2.2.2.1 wOrder (by decide)

/-- C5 as stated fails on the code: one of the two cited peak-hour
computations, the `peakOrderingHours` field of `getRestaurantAnalytics`, does
not return 24 entries — on an empty order set it returns no entries at all
(it is a sparse map truncated to the top 5, without revenue). -/
theorem c5_counterexample :
    analyticsOrders ⟨[], [], []⟩ "r1" = [] ∧
    (getRestaurantAnalytics ⟨[], [], []⟩ "r1").peakOrderingHours = [] ∧
    (getRestaurantAnalytics ⟨[], [], []⟩ "r1").peakOrderingHours.length ≠ 24 :=
  ⟨rfl, rfl, by decide⟩

/-- C5 amended: `getPeakTimes` does behave as claimed — for every order set
it returns exactly 24 entries, one per hour 0–23, whose `orderCount` and
`revenueCents` are the count and revenue sum of the non-canceled orders
created in that hour (0/0 for empty hours), sorted descending by
`orderCount`.  The `peakOrderingHours` of `getRestaurantAnalytics`, however,
is a sparse list: at most the top 5 hours, each present only when at least
one order was created in it (its `orderCount` again the per-hour count),
sorted descending, with no revenue field. -/
theorem c5_peak_hours_24_buckets (db : Db) (restaurantId : String) :
    (getPeakTimes db restaurantId).length = 24 ∧
    (∀ h : Fin 24, ∃ e ∈ getPeakTimes db restaurantId,
      e.hour = h.val ∧
      e.orderCount = ((analyticsOrders db restaurantId).filter
        (fun o => o.createdAt.hour = h)).length ∧
      e.revenueCents = (((analyticsOrders db restaurantId).filter
        (fun o => o.createdAt.hour = h)).map (fun o => o.totalCents)).sum) ∧
    (getPeakTimes db restaurantId).Pairwise
      (fun a b => b.orderCount ≤ a.orderCount) ∧
    (getRestaurantAnalytics db restaurantId).peakOrderingHours.length ≤ 5 ∧
    (getRestaurantAnalytics db restaurantId).peakOrderingHours.Pairwise
      (fun a b => b.orderCount ≤ a.orderCount) ∧
    (∀ e ∈ (getRestaurantAnalytics db restaurantId).peakOrderingHours,
      0 < e.orderCount ∧
      e.orderCount = ((analyticsOrders db restaurantId).filter
        (fun o => o.createdAt.hour.val = e.hour)).length) := by
  have hpoh : (getRestaurantAnalytics db restaurantId).peakOrderingHours =
      (List.insertionSort (fun a b => b.orderCount ≤ a.orderCount)
        ((jsGroupBy (fun o => o.createdAt.hour.val) (fun _ => 1)
            (fun c _ => c + 1) (analyticsOrders db restaurantId)).map
          (fun g => (⟨g.1, g.2⟩ : HourCount)))).take 5 := rfl
  refine ⟨?_, ?_, ?_, ?_, ?_, ?_⟩
  · rw [getPeakTimes, (List.perm_insertionSort _ _).length_eq]
    simp
  · intro h
    refine ⟨⟨h.val, (hourStats (analyticsOrders db restaurantId) h).1,
      (hourStats (analyticsOrders db restaurantId) h).2⟩, ?_, rfl, ?_, ?_⟩
    · rw [getPeakTimes]
      exact (List.perm_insertionSort _ _).mem_iff.mpr
        (List.mem_map.mpr ⟨h, List.mem_finRange h, rfl⟩)
    · rw [hourStats_eq]
    · rw [hourStats_eq]
  · rw [getPeakTimes]
    exact List.sorted_insertionSort _ _
  · rw [hpoh]
    exact List.length_take_le 5 _
  · rw [hpoh]
    exact List.Pairwise.sublist (List.take_sublist _ _)
      (List.sorted_insertionSort _ _)
  · intro e he
    rw [hpoh] at he
    have he' := (List.perm_insertionSort _ _).subset (List.take_subset _ _ he)
    rcases List.mem_map.mp he' with ⟨g, hg, rfl⟩
    obtain ⟨hkey, hval⟩ := mem_jsGroupBy hg
    have hne := filter_key_ne_nil hkey
    rw [accRun_count hne] at hval
    constructor
    · show 0 < g.2
      rw [hval]
      exact List.length_pos.mpr hne
    · exact hval

theorem c5_peak_hours_24_buckets_witness :
    ∃ e ∈ getPeakTimes wDb "r1",
      e.hour = (9 : Fin 24).val ∧
      e.orderCount = ((analyticsOrders wDb "r1").filter
        (fun o => o.createdAt.hour = (9 : Fin 24))).length ∧
      e.revenueCents = (((analyticsOrders wDb "r1").filter
        (fun o => o.createdAt.hour = (9 : Fin 24))).map
          (fun o => o.totalCents)).sum :=
  (c5_peak_hours_24_buckets wDb "r1").2.1 9

lemma take_top_cutoff {α κ : Type} [DecidableEq κ] (keyOf : α → κ)
    (rank : α → Nat) {l : List α} {n : Nat} {k : κ}
    (hsorted : l.Pairwise (fun a b => rank b ≤ rank a))
    (hk : k ∈ l.map keyOf)
    (hnot : k ∉ (l.take n).map keyOf) :
    (l.take n).length = n ∧
      ∃ x ∈ l, keyOf x = k ∧ ∀ p ∈ l.take n, rank x ≤ rank p := by
  by_cases hlen : l.length ≤ n
  · rw [List.take_of_length_le hlen] at hnot
    exact absurd hk hnot
  · push_neg at hlen
    refine ⟨by rw [List.length_take]; omega, ?_⟩
    have hsplit : l.take n ++ l.drop n = l := List.take_append_drop n l
    obtain ⟨x, hx, hxk⟩ : ∃ x ∈ l.drop n, keyOf x = k := by
      rcases List.mem_map.mp hk with ⟨x, hx, rfl⟩
      rw [← hsplit] at hx
      rcases List.mem_append.mp hx with h1 | h2
      · exact absurd (List.mem_map.mpr ⟨x, h1, rfl⟩) hnot
      · exact ⟨x, h2, rfl⟩
    refine ⟨x, List.drop_subset n l hx, hxk, ?_⟩
    intro p hp
    have hpair : (l.take n ++ l.drop n).Pairwise
        (fun a b => rank b ≤ rank a) := by
      rw [hsplit]
      exact hsorted
    exact (List.pairwise_append.mp hpair).2.2 p hp x hx

/-- C6: `getPopularItems` reports exactly the menuItemId groups of the
order-item rows, up to the limit.  Every entry aggregates the rows of its
menu item — `totalQuantity` sums the quantities, `orderCount` counts the
distinct owning orders (not the line count), `revenueCents` sums
`priceCents × quantity` — and its id occurs among the rows; the list is
sorted descending by `totalQuantity` (stable), carries no duplicate menu
item, has length `min limit #groups` (so with at most `limit` groups every
group appears), and a group is omitted only when `limit` entries of
at-least-as-large `totalQuantity` fill the list; the limit defaults to 10. -/
theorem c6_popular_items (db : Db) (restaurantId : String) (limit : Nat) :
    (∀ p ∈ getPopularItems db restaurantId limit,
      p.totalQuantity = (((orderItemRows db restaurantId).filter
          (fun row => row.menuItemId = p.menuItemId)).map
            (fun row => row.quantity)).sum ∧
      p.orderCount = (((orderItemRows db restaurantId).filter
          (fun row => row.menuItemId = p.menuItemId)).map
            (fun row => row.orderId)).toFinset.card ∧
      p.revenueCents = (((orderItemRows db restaurantId).filter
          (fun row => row.menuItemId = p.menuItemId)).map
            (fun row => row.priceCents * row.quantity)).sum) ∧
    (getPopularItems db restaurantId limit).Pairwise
      (fun a b => b.totalQuantity ≤ a.totalQuantity) ∧
    (getPopularItems db restaurantId limit).length ≤ limit ∧
    getPopularItems db restaurantId = getPopularItems db restaurantId 10 ∧
    (∀ p ∈ getPopularItems db restaurantId limit,
      p.menuItemId ∈ (orderItemRows db restaurantId).map
        (fun row => row.menuItemId)) ∧
    ((getPopularItems db restaurantId limit).map
      (fun p => p.menuItemId)).Nodup ∧
    (getPopularItems db restaurantId limit).length =
      min limit (firstDedup ((orderItemRows db restaurantId).map
        (fun row => row.menuItemId))).length ∧
    (∀ k ∈ (orderItemRows db restaurantId).map (fun row => row.menuItemId),
      k ∉ (getPopularItems db restaurantId limit).map
        (fun p => p.menuItemId) →
      (getPopularItems db restaurantId limit).length = limit ∧
      ∀ p ∈ getPopularItems db restaurantId limit,
        (((orderItemRows db restaurantId).filter
          (fun row => row.menuItemId = k)).map
            (fun row => row.quantity)).sum ≤ p.totalQuantity) := by
  have hids : ((jsGroupBy (fun row => row.menuItemId) popInit popUpd
      (orderItemRows db restaurantId)).map
        (fun g => (⟨g.1, g.2.menuItemName, g.2.totalQuantity,
          g.2.orderIds.length, g.2.revenueCents⟩ : PopularItem))).map
      (fun p => p.menuItemId) =
      firstDedup ((orderItemRows db restaurantId).map
        (fun row => row.menuItemId)) := by
    rw [List.map_map, ← map_fst_jsGroupBy (fun row => row.menuItemId)
      popInit popUpd (orderItemRows db restaurantId)]
    rfl
  have hperm := List.perm_insertionSort
    (fun a b : PopularItem => b.totalQuantity ≤ a.totalQuantity)
    ((jsGroupBy (fun row => row.menuItemId) popInit popUpd
      (orderItemRows db restaurantId)).map
        (fun g => ⟨g.1, g.2.menuItemName, g.2.totalQuantity,
          g.2.orderIds.length, g.2.revenueCents⟩))
  refine ⟨?_, ?_, ?_, rfl, ?_, ?_, ?_, ?_⟩
  · intro p hp
    rw [getPopularItems] at hp
    have hp' := (List.perm_insertionSort _ _).subset (List.take_subset _ _ hp)
    rcases List.mem_map.mp hp' with ⟨g, hg, rfl⟩
    obtain ⟨hkey, hval⟩ := mem_jsGroupBy hg
    have hne := filter_key_ne_nil hkey
    obtain ⟨hq, hids', hrev⟩ := accRun_pop hne
    refine ⟨?_, ?_, ?_⟩
    · show g.2.totalQuantity = (((orderItemRows db restaurantId).filter
        (fun row => row.menuItemId = g.1)).map (fun row => row.quantity)).sum
      rw [hval]
      exact hq
    · show g.2.orderIds.length = (((orderItemRows db restaurantId).filter
        (fun row => row.menuItemId = g.1)).map
          (fun row => row.orderId)).toFinset.card
      rw [hval, hids']
      exact length_firstDedup _
    · show g.2.revenueCents = (((orderItemRows db restaurantId).filter
        (fun row => row.menuItemId = g.1)).map
          (fun row => row.priceCents * row.quantity)).sum
      rw [hval]
      exact hrev
  · rw [getPopularItems]
    exact List.Pairwise.sublist (List.take_sublist _ _)
      (List.sorted_insertionSort _ _)
  · rw [getPopularItems]
    exact List.length_take_le _ _
  · intro p hp
    rw [getPopularItems] at hp
    have hp' := (List.perm_insertionSort _ _).subset (List.take_subset _ _ hp)
    rcases List.mem_map.mp hp' with ⟨g, hg, rfl⟩
    exact (mem_jsGroupBy hg).1
  · rw [getPopularItems]
    exact List.Nodup.sublist
      ((List.take_sublist limit _).map (fun p : PopularItem => p.menuItemId))
      (((hperm.map (fun p : PopularItem => p.menuItemId)).nodup_iff).mpr
        (by rw [hids]; exact nodup_firstDedup _))
  · rw [getPopularItems, List.length_take, hperm.length_eq, List.length_map,
      jsGroupBy_eq_groupSpec, groupSpec, List.length_map]
  · intro k hkmem hknot
    rw [getPopularItems] at hknot
    have hsorted := List.sorted_insertionSort
      (fun a b : PopularItem => b.totalQuantity ≤ a.totalQuantity)
      ((jsGroupBy (fun row => row.menuItemId) popInit popUpd
        (orderItemRows db restaurantId)).map
          (fun g => ⟨g.1, g.2.menuItemName, g.2.totalQuantity,
            g.2.orderIds.length, g.2.revenueCents⟩))
    have hk' : k ∈ (List.insertionSort
        (fun a b : PopularItem => b.totalQuantity ≤ a.totalQuantity)
        ((jsGroupBy (fun row => row.menuItemId) popInit popUpd
          (orderItemRows db restaurantId)).map
            (fun g => ⟨g.1, g.2.menuItemName, g.2.totalQuantity,
              g.2.orderIds.length, g.2.revenueCents⟩))).map
        (fun p => p.menuItemId) := by
      apply ((hperm.map (fun p : PopularItem => p.menuItemId)).mem_iff).mpr
      rw [hids]
      exact mem_firstDedup.mpr hkmem
    obtain ⟨hlen, x, hxmem, hxk, hxle⟩ := take_top_cutoff
      (fun p : PopularItem => p.menuItemId)
      (fun p : PopularItem => p.totalQuantity)
      hsorted hk' hknot
    refine ⟨hlen, ?_⟩
    intro p hp
    have hxmap := hperm.subset hxmem
    rcases List.mem_map.mp hxmap with ⟨g, hg, rfl⟩
    obtain ⟨hgkey, hgval⟩ := mem_jsGroupBy hg
    have hgne := filter_key_ne_nil hgkey
    obtain ⟨hq, _, _⟩ := accRun_pop hgne
    have hgk : g.1 = k := hxk
    subst hgk
    have hx_tq : g.2.totalQuantity =
        (((orderItemRows db restaurantId).filter
          (fun row => row.menuItemId = g.1)).map
            (fun row => row.quantity)).sum := by
      rw [hgval]
      exact hq
    rw [← hx_tq]
    have hrank := hxle p (by rw [getPopularItems] at hp; exact hp)
    exact hrank

/-- The one popular-item entry of `wDb`. -/
def wPop : PopularItem := ⟨"m1", "Burger", 2, 1, 1000⟩

theorem c6_popular_items_witness :
    wPop.totalQuantity = (((orderItemRows wDb "r1").filter
        (fun row => row.menuItemId = wPop.menuItemId)).map
          (fun row => row.quantity)).sum ∧
    wPop.orderCount = (((orderItemRows wDb "r1").filter
        (fun row => row.menuItemId = wPop.menuItemId)).map
          (fun row => row.orderId)).toFinset.card ∧
    wPop.revenueCents = (((orderItemRows wDb "r1").filter
        (fun row => row.menuItemId = wPop.menuItemId)).map
          (fun row => row.priceCents * row.quantity)).sum :=
  (c6_popular_items wDb "r1" 10).1 wPop (by decide)

lemma rollup_facts (key : Order → Nat) (n : Nat) (orders : List Order) :
    (∀ b ∈ rollup key n orders,
      b.orderCount = (orders.filter (fun o => key o = b.date)).length ∧
      b.totalRevenueCents =
        ((orders.filter (fun o => key o = b.date)).map
          (fun o => o.totalCents)).sum ∧
      b.averageOrderValueCents =
        jsRoundDiv b.totalRevenueCents b.orderCount) ∧
    (rollup key n orders).Pairwise (fun x y => x.date ≤ y.date) ∧
    (rollup key n orders).length ≤ n ∧
    (∀ o ∈ orders, key o ∉ (rollup key n orders).map (fun b => b.date) →
      (rollup key n orders).length = n ∧
      ∀ b ∈ rollup key n orders, key o < b.date) := by
  have hsorted : (List.insertionSort
      (fun a b : TimeBasedStats => a.date ≤ b.date)
      ((jsGroupBy key bucketInit bucketUpd orders).map
        mkTimeStats)).Pairwise (fun x y => x.date ≤ y.date) :=
    List.sorted_insertionSort _ _
  refine ⟨?_, ?_, ?_, ?_⟩
  · intro b hb
    rw [rollup, takeLast] at hb
    have hb' := (List.perm_insertionSort _ _).subset (List.drop_subset _ _ hb)
    rcases List.mem_map.mp hb' with ⟨g, hg, rfl⟩
    obtain ⟨hkey, hval⟩ := mem_jsGroupBy hg
    have hne := filter_key_ne_nil hkey
    rw [accRun_bucket hne] at hval
    refine ⟨?_, ?_, rfl⟩
    · show g.2.1 = (orders.filter (fun o => key o = g.1)).length
      rw [hval]
    · show g.2.2 = ((orders.filter (fun o => key o = g.1)).map
        (fun o => o.totalCents)).sum
      rw [hval]
  · rw [rollup, takeLast]
    exact List.Pairwise.sublist ((List.drop_suffix _ _).sublist) hsorted
  · rw [rollup, takeLast]
    simp only [List.length_drop]
    omega
  · intro o ho hnot
    have hk : key o ∈ (List.insertionSort
        (fun a b : TimeBasedStats => a.date ≤ b.date)
        ((jsGroupBy key bucketInit bucketUpd orders).map mkTimeStats)).map
          (fun b => b.date) := by
      apply ((List.perm_insertionSort _ _).map
        (fun b : TimeBasedStats => b.date)).mem_iff.mpr
      have h1 : ((jsGroupBy key bucketInit bucketUpd orders).map
          mkTimeStats).map (fun b => b.date) =
          (jsGroupBy key bucketInit bucketUpd orders).map Prod.fst := by
        rw [List.map_map]
        rfl
      rw [h1, map_fst_jsGroupBy]
      exact mem_firstDedup.mpr (List.mem_map.mpr ⟨o, ho, rfl⟩)
    exact takeLast_recent hsorted hk hnot

/-- C7: each daily (weekly) bucket reports the count, revenue sum, and
rounded average — e.g. 2 orders totaling 1500 cents average to 750 — of the
non-canceled orders falling on that calendar day (Sunday-aligned week);
buckets are sorted ascending by date key and truncated to the most recent
30 days (12 weeks): a day (week) that was cut off only happens when 30 (12)
buckets remain, all with strictly newer keys. -/
theorem c7_daily_weekly_rollups (db : Db) (restaurantId : String) :
    (∀ b ∈ (getRestaurantAnalytics db restaurantId).ordersByDay,
      b.orderCount = ((analyticsOrders db restaurantId).filter
        (fun o => o.createdAt.epochDay = b.date)).length ∧
      b.totalRevenueCents = (((analyticsOrders db restaurantId).filter
        (fun o => o.createdAt.epochDay = b.date)).map
          (fun o => o.totalCents)).sum ∧
      b.averageOrderValueCents =
        jsRoundDiv b.totalRevenueCents b.orderCount) ∧
    (getRestaurantAnalytics db restaurantId).ordersByDay.Pairwise
      (fun x y => x.date ≤ y.date) ∧
    (getRestaurantAnalytics db restaurantId).ordersByDay.length ≤ 30 ∧
    (∀ o ∈ analyticsOrders db restaurantId,
      o.createdAt.epochDay ∉
        (getRestaurantAnalytics db restaurantId).ordersByDay.map
          (fun b => b.date) →
      (getRestaurantAnalytics db restaurantId).ordersByDay.length = 30 ∧
      ∀ b ∈ (getRestaurantAnalytics db restaurantId).ordersByDay,
        o.createdAt.epochDay < b.date) ∧
    (∀ b ∈ (getRestaurantAnalytics db restaurantId).ordersByWeek,
      b.orderCount = ((analyticsOrders db restaurantId).filter
        (fun o => weekStartOf o.createdAt.epochDay = b.date)).length ∧
      b.totalRevenueCents = (((analyticsOrders db restaurantId).filter
        (fun o => weekStartOf o.createdAt.epochDay = b.date)).map
          (fun o => o.totalCents)).sum ∧
      b.averageOrderValueCents =
        jsRoundDiv b.totalRevenueCents b.orderCount) ∧
    (getRestaurantAnalytics db restaurantId).ordersByWeek.Pairwise
      (fun x y => x.date ≤ y.date) ∧
    (getRestaurantAnalytics db restaurantId).ordersByWeek.length ≤ 12 ∧
    (∀ o ∈ analyticsOrders db restaurantId,
      weekStartOf o.createdAt.epochDay ∉
        (getRestaurantAnalytics db restaurantId).ordersByWeek.map
          (fun b => b.date) →
      (getRestaurantAnalytics db restaurantId).ordersByWeek.length = 12 ∧
      ∀ b ∈ (getRestaurantAnalytics db restaurantId).ordersByWeek,
        weekStartOf o.createdAt.epochDay < b.date) ∧
    jsRoundDiv 1500 2 = 750 := by
  obtain ⟨hd1, hd2, hd3, hd4⟩ := rollup_facts
    (fun o => o.createdAt.epochDay) 30 (analyticsOrders db restaurantId)
  obtain ⟨hw1, hw2, hw3, hw4⟩ := rollup_facts
    (fun o => weekStartOf o.createdAt.epochDay) 12
    (analyticsOrders db restaurantId)
  exact ⟨hd1, hd2, hd3, hd4, hw1, hw2, hw3, hw4, by decide⟩

/-- The single day bucket of `wDb`. -/
def wDayBucket : TimeBasedStats := ⟨20000, 1, 1083, 1083⟩

theorem c7_daily_weekly_rollups_witness :
    wDayBucket.orderCount = ((analyticsOrders wDb "r1").filter
      (fun o => o.createdAt.epochDay = wDayBucket.date)).length ∧
    wDayBucket.totalRevenueCents = (((analyticsOrders wDb "r1").filter
      (fun o => o.createdAt.epochDay = wDayBucket.date)).map
        (fun o => o.totalCents)).sum ∧
    wDayBucket.averageOrderValueCents =
      jsRoundDiv wDayBucket.totalRevenueCents wDayBucket.orderCount :=
  (c7_daily_weekly_rollups wDb "r1").1 wDayBucket (by decide)

end RouteDash
